import Mathlib

/-!
# Verification of the AtivePlay IPTV backend (server-rust)

A shallow embedding, in Lean 4, of the pure computational core of the
`server-rust` service: the M3U streaming parser, the content classifier,
the bulk-copy line serialization, the HLS manifest rewriter, the Xtream
normalization helpers, the ingestion-admission decision and the
cache-validation endpoint.  Each definition is translated from the Rust
source (file and function names are kept); theorems at the end settle the
frozen specification claims.

Modelling conventions:

* Rust machine integers are modelled as `Nat`/`Int` with explicit wrapping
  (`% 2^32`, `% 2^64`) where the source relies on wrapping semantics.
* Rust `String` is modelled as Lean `String`; byte-oriented operations work
  on the UTF-8 encoding computed by `utf8Bytes`.
* Regexes from the `regex` crate are modelled by a small token matcher
  (`RTok`, `matchToksF`); `\w` and `\d` are modelled over ASCII (plus the
  Latin-1 letters that occur in the source patterns), which coincides with
  the Unicode classes on every input considered here.
* Fallible code returns `Option`/`Except`.
-/

namespace AtivePlay

/-! ## Characters and strings -/

/-- Lowercasing as used by `str::to_lowercase`, restricted to ASCII plus the
Latin-1 letters that occur in the classifier patterns. -/
def lowerChar (c : Char) : Char :=
  if 'A' ≤ c ∧ c ≤ 'Z' then Char.ofNat (c.toNat + 32)
  else if c = 'Á' then 'á' else if c = 'Â' then 'â' else if c = 'Ã' then 'ã'
  else if c = 'É' then 'é' else if c = 'Ê' then 'ê' else if c = 'Í' then 'í'
  else if c = 'Ó' then 'ó' else if c = 'Ô' then 'ô' else if c = 'Ú' then 'ú'
  else if c = 'Ç' then 'ç' else c

/-- Lowercase every character of a string. -/
def lowerStr (s : String) : String := ⟨s.data.map lowerChar⟩

/-- Whitespace in the sense of `char::is_whitespace` (ASCII part). -/
def isWS (c : Char) : Bool :=
  c = ' ' || c = '\t' || c = '\n' || c = '\r' || c.toNat = 11 || c.toNat = 12

/-- A word character for the `\w` class and `\b` boundaries: ASCII
alphanumerics, underscore, and Latin letters with accents (Latin-1
supplement / Latin extended-A block). -/
def isWordChar (c : Char) : Bool :=
  c.isAlphanum || c = '_' || (0xC0 ≤ c.toNat && c.toNat ≤ 0x17F && c.toNat ≠ 0xD7 && c.toNat ≠ 0xF7)

/-- Drop leading whitespace. -/
def trimLeft : List Char → List Char
  | [] => []
  | c :: cs => if isWS c then trimLeft cs else c :: cs

/-- `trimLeft` never lengthens its input. -/
theorem trimLeft_length_le (l : List Char) : (trimLeft l).length ≤ l.length := by
  induction l with
  | nil => simp [trimLeft]
  | cons c cs ih =>
    simp only [trimLeft]
    split
    · exact Nat.le_trans ih (Nat.le_succ _)
    · exact Nat.le_refl _

/-- `str::trim`: drop whitespace at both ends. -/
def rustTrim (s : String) : String :=
  ⟨((trimLeft ((trimLeft s.data.reverse)).reverse))⟩

/-- Decimal digit character. -/
def digitChar (n : Nat) : Char := Char.ofNat (48 + n % 10)

/-- Decimal representation, accumulator-style. -/
def natToStrCore (fuel n : Nat) (acc : List Char) : List Char :=
  match fuel with
  | 0 => acc
  | f + 1 => if n < 10 then digitChar n :: acc
             else natToStrCore f (n / 10) (digitChar (n % 10) :: acc)

/-- Decimal representation of a natural number (Rust `u32::to_string` and
friends). -/
def natToStr (n : Nat) : String := ⟨natToStrCore (n + 1) n []⟩

/-- Decimal representation of an integer (Rust `i16::to_string`). -/
def intToStr (i : Int) : String :=
  if i < 0 then "-" ++ natToStr i.natAbs else natToStr i.natAbs

/-- Is `pat` a prefix of `text`? -/
def isPrefixL : List Char → List Char → Bool
  | [], _ => true
  | _ :: _, [] => false
  | p :: ps, t :: ts => p = t && isPrefixL ps ts

/-- Does `text` contain `pat` as a contiguous substring? -/
def containsL (pat : List Char) : List Char → Bool
  | [] => isPrefixL pat []
  | t :: ts => isPrefixL pat (t :: ts) || containsL pat ts

/-- `str::contains` for strings. -/
def containsSub (s pat : String) : Bool := containsL pat.data s.data

/-- `str::starts_with` (kernel-reducible replacement for the core
function). -/
def startsWithS (s pre : String) : Bool := isPrefixL pre.data s.data

/-- Drop the first `n` characters of a string (all inputs here are ASCII,
so characters coincide with bytes). -/
def dropS (s : String) (n : Nat) : String := ⟨s.data.drop n⟩

/-- UTF-8 encoding of a single character, as byte values. -/
def utf8BytesOfChar (c : Char) : List Nat :=
  let n := c.toNat
  if n < 0x80 then [n]
  else if n < 0x800 then [0xC0 + n / 64, 0x80 + n % 64]
  else if n < 0x10000 then [0xE0 + n / 4096, 0x80 + (n / 64) % 64, 0x80 + n % 64]
  else [0xF0 + n / 262144, 0x80 + (n / 4096) % 64, 0x80 + (n / 64) % 64, 0x80 + n % 64]

/-- UTF-8 encoding of a string, as byte values (Rust `str::as_bytes`). -/
def utf8Bytes (s : String) : List Nat := (s.data.map utf8BytesOfChar).flatten

/-- Byte length of a string (Rust `str::len`). -/
def utf8Len (s : String) : Nat := (utf8Bytes s).length

/-! ## A tiny regex-token matcher

The classifier compiles a fixed set of regexes; every one of them is a
sequence of the following tokens.  `(?i)` patterns are applied to the
lowercased input with lowercase literals.  Matching is existential
(`Regex::is_match`), so greedy/lazy distinctions are irrelevant here;
the capture-group extractors (`extract_series_info`) are implemented
separately with the source's greedy/lazy semantics. -/

inductive RTok where
  /-- a literal character sequence -/
  | lit : String → RTok
  /-- `\s*` -/
  | ws0 : RTok
  /-- `\s+` -/
  | ws1 : RTok
  /-- `\d{lo,hi}` -/
  | digits : Nat → Nat → RTok
  /-- `\b` -/
  | bnd : RTok
  /-- `$` (end of haystack) -/
  | eos : RTok
  /-- `.*` (any characters except newline) -/
  | dotStar : RTok
  /-- `\w+` -/
  | w1 : RTok
  /-- `\w*` (used only as the continuation of `\w+`) -/
  | w0 : RTok
  /-- alternation over token sequences; `(x)?` is `altG [x, []]` -/
  | altG : List (List RTok) → RTok
deriving Repr

mutual
/-- Fuel bound for one token (number of matcher steps that consume no
input character). -/
def rtokFuel : RTok → Nat
  | .altG qs => 2 + rtokAltsFuel qs
  | .digits _ hi => 2 + hi
  | _ => 2

/-- Fuel bound for the alternatives of an `altG`. -/
def rtokAltsFuel : List (List RTok) → Nat
  | [] => 0
  | q :: qs => rtokListFuel q + 2 + rtokAltsFuel qs

/-- Fuel bound for a token list. -/
def rtokListFuel : List RTok → Nat
  | [] => 0
  | t :: ts => rtokFuel t + rtokListFuel ts
end

/-- Fuel for a token list. -/
def toksFuel (ps : List RTok) : Nat := rtokListFuel ps + 2

/-- Match `pat` against a prefix of `text`, returning the rest. -/
def matchLit : List Char → List Char → Option (List Char)
  | [], t => some t
  | _ :: _, [] => none
  | p :: ps, t :: ts => if p = t then matchLit ps ts else none

/-- Word/non-word boundary between the previous character (`none` at the
start of the haystack) and the rest of the text. -/
def atBoundary (prev : Option Char) (text : List Char) : Bool :=
  let l := match prev with | none => false | some c => isWordChar c
  let r := match text with | [] => false | c :: _ => isWordChar c
  l != r

/-- The token matcher: does `ps` match a prefix of `text`, where `prev` is
the character just before `text` in the haystack?  Backtracking is realised
through `||`; `fuel` dominates the length of any single matching attempt,
so running with the fuel computed by `rxMatch` is complete. -/
def matchToksF : Nat → List RTok → Option Char → List Char → Bool
  | 0, _, _, _ => false
  | _ + 1, [], _, _ => true
  | fuel + 1, .lit l :: ps, prev, text =>
    match matchLit l.data text with
    | some rest =>
      matchToksF fuel ps (match l.data.getLast? with | some c => some c | none => prev) rest
    | none => false
  | fuel + 1, .ws0 :: ps, prev, text =>
    matchToksF fuel ps prev text ||
      (match text with
       | c :: cs => isWS c && matchToksF fuel (.ws0 :: ps) (some c) cs
       | [] => false)
  | fuel + 1, .ws1 :: ps, prev, text =>
    (match text with
     | c :: cs => isWS c && matchToksF fuel (.ws0 :: ps) (some c) cs
     | [] => false) || (prev == prev && false)   -- keep prev used uniformly
  | fuel + 1, .digits lo hi :: ps, prev, text =>
    (decide (lo = 0) && matchToksF fuel ps prev text) ||
      (decide (0 < hi) &&
        match text with
        | c :: cs => c.isDigit && matchToksF fuel (.digits (lo - 1) (hi - 1) :: ps) (some c) cs
        | [] => false)
  | fuel + 1, .bnd :: ps, prev, text =>
    atBoundary prev text && matchToksF fuel ps prev text
  | fuel + 1, .eos :: ps, prev, text =>
    text.isEmpty && matchToksF fuel ps prev text
  | fuel + 1, .dotStar :: ps, prev, text =>
    matchToksF fuel ps prev text ||
      (match text with
       | c :: cs => decide (c ≠ '\n') && matchToksF fuel (.dotStar :: ps) (some c) cs
       | [] => false)
  | fuel + 1, .w1 :: ps, prev, text =>
    (match text with
     | c :: cs => isWordChar c && matchToksF fuel (.w0 :: ps) (some c) cs
     | [] => false) || (prev == prev && false)
  | fuel + 1, .w0 :: ps, prev, text =>
    matchToksF fuel ps prev text ||
      (match text with
       | c :: cs => isWordChar c && matchToksF fuel (.w0 :: ps) (some c) cs
       | [] => false)
  | fuel + 1, .altG qs :: ps, prev, text =>
    qs.any (fun q => matchToksF fuel (q ++ ps) prev text)

/-- Try the pattern at every position (`Regex::is_match`, unanchored). -/
def rxMatchAux (fuel : Nat) (ps : List RTok) : Option Char → List Char → Bool
  | prev, [] => matchToksF fuel ps prev []
  | prev, c :: cs => matchToksF fuel ps prev (c :: cs) || rxMatchAux fuel ps (some c) cs

/-- `Regex::is_match` for a token pattern. -/
def rxMatch (ps : List RTok) (s : String) : Bool :=
  rxMatchAux (s.data.length + toksFuel ps) ps none s.data

/-- `Regex::is_match` for an anchored (`^...`) token pattern. -/
def rxMatchStart (ps : List RTok) (s : String) : Bool :=
  matchToksF (s.data.length + toksFuel ps) ps none s.data

/-- Shorthand: alternation of plain words. -/
def altWords (ws : List String) : RTok := .altG (ws.map (fun w => [.lit w]))

/-- Shorthand: `\b(w1|...|wn)\b`. -/
def wordAlt (ws : List String) : List RTok := [.bnd, altWords ws, .bnd]

/-! ## Hash functions

`src/server-rust/src/services/m3u_parser.rs`, `url_dedup_hash` (lines
143-148) and `hash_url` (lines 128-133). -/

/-- Modelled from the spec: "Compute a dedup key (a 64-bit hash of the
URL)."  The source feeds the URL into `std::collections::hash_map`'s
`DefaultHasher` (SipHash-1-3), which is standard-library code external to
this repository; we model it by the FNV-1a 64-bit hash of the UTF-8 bytes —
a deterministic 64-bit hash, which is the only property the parser uses. -/
def url_dedup_hash (url : String) : Nat :=
  (utf8Bytes url).foldl (fun h b => ((h ^^^ b) * 1099511628211) % (2 ^ 64))
    14695981039346656037

/-- One lowercase hex digit. -/
def hexDigit (n : Nat) : Char :=
  if n < 10 then Char.ofNat (48 + n) else Char.ofNat (87 + n)

/-- Two lowercase hex digits of a byte. -/
def byteHex (b : Nat) : List Char := [hexDigit (b / 16 % 16), hexDigit (b % 16)]

/-- 32-bit left rotation (values kept `< 2^32`). -/
def rotl32 (x n : Nat) : Nat := ((x <<< n) % (2 ^ 32)) ||| (x >>> (32 - n))

/-- Split a byte list into 64-byte chunks. -/
def chunks64 : Nat → List Nat → List (List Nat)
  | 0, _ => []
  | _, [] => []
  | fuel + 1, l => l.take 64 :: chunks64 fuel (l.drop 64)

/-- Big-endian 32-bit words from bytes (4 bytes per word). -/
def bytesToWords : List Nat → List Nat
  | b0 :: b1 :: b2 :: b3 :: rest =>
    (((b0 * 256 + b1) * 256 + b2) * 256 + b3) :: bytesToWords rest
  | _ => []

/-- SHA-1 message-schedule extension from 16 to 80 words. -/
def sha1Extend : Nat → List Nat → List Nat
  | 0, w => w
  | n + 1, w =>
    let i := w.length
    let x := rotl32 ((w.getD (i - 3) 0) ^^^ (w.getD (i - 8) 0) ^^^
      (w.getD (i - 14) 0) ^^^ (w.getD (i - 16) 0)) 1
    sha1Extend n (w ++ [x])

/-- SHA-1 round function and constant for round `i`. -/
def sha1FK (i b c d : Nat) : Nat × Nat :=
  if i < 20 then ((b &&& c) ||| ((2 ^ 32 - 1 - b) &&& d), 0x5A827999)
  else if i < 40 then (b ^^^ c ^^^ d, 0x6ED9EBA1)
  else if i < 60 then ((b &&& c) ||| (b &&& d) ||| (c &&& d), 0x8F1BBCDC)
  else (b ^^^ c ^^^ d, 0xCA62C1D6)

/-- SHA-1 compression of one 64-byte chunk into the running state. -/
def sha1Chunk (h : Nat × Nat × Nat × Nat × Nat) (chunk : List Nat) :
    Nat × Nat × Nat × Nat × Nat :=
  let w := sha1Extend 64 (bytesToWords chunk)
  let (h0, h1, h2, h3, h4) := h
  let s := (List.range 80).foldl
    (fun (st : Nat × Nat × Nat × Nat × Nat) i =>
      let (a, b, c, d, e) := st
      let (f, k) := sha1FK i b c d
      let temp := (rotl32 a 5 + f + e + k + w.getD i 0) % (2 ^ 32)
      (temp, a, rotl32 b 30, c, d))
    (h0, h1, h2, h3, h4)
  let (a, b, c, d, e) := s
  ((h0 + a) % (2 ^ 32), (h1 + b) % (2 ^ 32), (h2 + c) % (2 ^ 32),
    (h3 + d) % (2 ^ 32), (h4 + e) % (2 ^ 32))

/-- SHA-1 padding: `0x80`, zeros to 56 mod 64, then the 64-bit big-endian
bit length. -/
def sha1Pad (msg : List Nat) : List Nat :=
  let len := msg.length
  let zeros := (64 + 56 - (len + 1) % 64) % 64
  let bitLen := len * 8
  msg ++ [0x80] ++ List.replicate zeros 0 ++
    (List.range 8).map (fun i => bitLen / (256 ^ (7 - i)) % 256)

/-- Eight lowercase hex digits of a 32-bit word. -/
def wordHex (x : Nat) : List Char :=
  byteHex (x / 16777216 % 256) ++ byteHex (x / 65536 % 256) ++
    byteHex (x / 256 % 256) ++ byteHex (x % 256)

/-- SHA-1 digest of a byte list, as 40 lowercase hex characters. -/
def sha1Hex (msg : List Nat) : String :=
  let padded := sha1Pad msg
  let (h0, h1, h2, h3, h4) := (chunks64 (padded.length + 1) padded).foldl sha1Chunk
    (0x67452301, 0xEFCDAB89, 0x98BADCFE, 0x10325476, 0xC3D2E1F0)
  ⟨wordHex h0 ++ wordHex h1 ++ wordHex h2 ++ wordHex h3 ++ wordHex h4⟩

/-- `hash_url`: SHA-1 of the URL text, lowercase hex
(`m3u_parser.rs` lines 128-133; the digest itself comes from the external
`sha1` crate and is modelled by the SHA-1 implementation above). -/
def hash_url (url : String) : String := sha1Hex (utf8Bytes url)

/-! ## Content classifier

`src/server-rust/src/services/classifier.rs`.  Every regex of the source is
rendered as a token pattern; `(?i)` patterns are matched against the
lowercased input (their literals written lowercase below). -/

/-- `models/playlist.rs`: the media kind of an item. -/
inductive MediaKind where
  | live | movie | series | unknown
deriving DecidableEq, Repr

/-- One whitespace character, `.`, `_` or `-`: the class `[\s._-]`. -/
def sepClass : RTok :=
  .altG [[.lit " "], [.lit "\t"], [.lit "\n"], [.lit "\r"],
    [.lit "\x0b"], [.lit "\x0c"], [.lit "."], [.lit "_"], [.lit "-"]]

/-- `filmes?|movies?|vod` (optional plural dropped: irrelevant for
`is_match`). -/
def filmeMovieVod : RTok := .altG [[.lit "filme"], [.lit "movie"], [.lit "vod"]]

/-- `s[eé]ries?` as a containment test (optional tail irrelevant). -/
def serieAlt : RTok := .altG [[.lit "serie"], [.lit "série"]]

/-- `ADULT_CONTENT = (?i)xxx|onlyfans|adulto|\+18`. -/
def adultContentPat : List RTok := [altWords ["xxx", "onlyfans", "adulto", "+18"]]

/-- `TS_STREAM = (?i)/ts(\?|$)`. -/
def tsStreamPat : List RTok := [.lit "/ts", .altG [[.lit "?"], [.eos]]]

/-- `PATTERN_24H = (?i)\b24h(rs)?\b`. -/
def pattern24hPat : List RTok := [.bnd, .lit "24h", .altG [[.lit "rs"], []], .bnd]

/-- `PATTERN_24_7 = 24/7`. -/
def pattern247Pat : List RTok := [.lit "24/7"]

/-- `COLETANEA = (?i)coletanea`. -/
def coletaneaPat : List RTok := [.lit "coletanea"]

/-- `CINE_24H = (?i)CINE.*24H`. -/
def cine24hPat : List RTok := [.lit "cine", .dotStar, .lit "24h"]

/-- `CANAL_24H_PREFIX = (?i)^24H\s*•` (anchored). -/
def canal24hPat : List RTok := [.lit "24h", .ws0, .lit "•"]

/-- `CINE_TEMATICO = (?i)^CINE\s+\w+\s+\d{2}` (anchored). -/
def cineTematicoPat : List RTok := [.lit "cine", .ws1, .w1, .ws1, .digits 2 2]

/-- `EVENTO_HORARIO = ^\d{1,2}:\d{2}\s+` (anchored). -/
def eventoHorarioPat : List RTok := [.digits 1 2, .lit ":", .digits 2 2, .ws1]

/-- `SERIES_CHECK = (?i)s[eé]ries|series|novelas|animes|doramas`. -/
def seriesCheckPat : List RTok :=
  [.altG [[.lit "series"], [.lit "séries"], [.lit "novelas"], [.lit "animes"],
    [.lit "doramas"]]]

/-- `MOVIES_CHECK = (?i)filmes|movies|cinema|lancamentos|lançamentos|vod`. -/
def moviesCheckPat : List RTok :=
  [.altG [[.lit "filmes"], [.lit "movies"], [.lit "cinema"], [.lit "lancamentos"],
    [.lit "lançamentos"], [.lit "vod"]]]

/-- `HASH_SERIES_NOVELAS = (?i)#\s*\|\s*(s[eé]ries|novelas)`. -/
def hashSeriesNovelasPat : List RTok :=
  [.lit "#", .ws0, .lit "|", .ws0,
    .altG [[.lit "series"], [.lit "séries"], [.lit "novelas"]]]

/-- `HASH_FILMES = (?i)#\s*\|\s*filmes?`. -/
def hashFilmesPat : List RTok := [.lit "#", .ws0, .lit "|", .ws0, .lit "filme"]

/-- `(?i)\bS\s*•` (the explicit series marker in group titles). -/
def sBulletPat : List RTok := [.bnd, .lit "s", .ws0, .lit "•"]

/-- `(?i)\bF\s*•` (the explicit movie marker in group titles). -/
def fBulletPat : List RTok := [.bnd, .lit "f", .ws0, .lit "•"]

/-- `MOVIE_GROUP_CHECK =
(?i)filme|movies?|cinema|lancamento|lançamento|f\s*•|▶️\s*filmes?`. -/
def movieGroupCheckPat : List RTok :=
  [.altG [[.lit "filme"], [.lit "movie"], [.lit "cinema"], [.lit "lancamento"],
    [.lit "lançamento"], [.lit "f", .ws0, .lit "•"], [.lit "▶️", .ws0, .lit "filme"]]]

/-- `SERIES_PATTERN_CHECK = (?i)S\d{1,2}E\d{1,3}`. -/
def seriesPatternCheckPat : List RTok :=
  [.lit "s", .digits 1 2, .lit "e", .digits 1 3]

/-- `GROUP_LIVE_PATTERNS` (18 regexes, in source order). -/
def groupLivePats : List (List RTok) :=
  [ wordAlt ["canais", "canai", "channels", "channel", "tv", "live", "news",
      "ao vivo", "abertos", "aberto"],
    wordAlt ["globo", "sbt", "record", "band", "redetv", "cultura"],
    [.lit "24hr"],
    [.lit "24/7"],
    [.lit "series", .ws0, .lit "24h"],
    [.lit "canais", .ws0, .lit "|"],
    [.lit "futebol"],
    [.lit "esporte"],
    [.lit "sport"],
    [.altG [[.lit "musica"], [.lit "música"]], .altG [[.lit "s"], []], .ws0, .lit "24h"],
    [.lit "runtime", .ws0, .lit "24h"],
    [.lit "cine", .ws1, .dotStar, .lit "24hrs"],
    wordAlt ["jogos do dia"],
    [.bnd, .altG [[.lit "esportes"], [.lit "esporte"], [.lit "sports"], [.lit "sport"]],
      .ws0, .lit "ppv"],
    [.bnd, .altG [[.lit "sportv"], [.lit "espn"], [.lit "fox", .ws0, .lit "sports"],
      [.lit "combate"]], .bnd],
    wordAlt ["ppv"],
    wordAlt ["documentários", "documentário", "documentarios", "documentario"],
    wordAlt ["variedades"] ]

/-- `GROUP_MOVIE_PATTERNS` (10 regexes, in source order). -/
def groupMoviePats : List (List RTok) :=
  [ wordAlt ["filmes", "filme", "movies", "movie", "cinema", "lancamentos",
      "lancamento", "lançamentos", "lançamento"],
    wordAlt ["vod"],
    wordAlt ["acao", "terror", "comedia", "drama", "ficcao", "aventura",
      "animacao", "suspense", "romance"],
    wordAlt ["acao", "acão", "açao", "ação", "comedia", "comédia", "ficcao",
      "ficcão", "ficçao", "ficção", "animacao", "animacão", "animaçao", "animação"],
    wordAlt ["dublado", "legendado", "dual", "nacional"],
    [.bnd, altWords ["4k", "uhd", "fhd", "hd"], .ws0,
      .altG [[.lit "filmes"], [.lit "filme"], [.lit "movies"], [.lit "movie"], []], .bnd],
    [.altG [[.lit ":"], [.lit "|"]], .ws0, filmeMovieVod],
    [.lit "|", .ws0, .lit "br", .ws0, .lit "|", .ws0, filmeMovieVod],
    [.lit "[", .ws0, .lit "br", .ws0, .lit "]", .ws0, filmeMovieVod],
    wordAlt ["coletanea", "coletânea"] ]

/-- `GROUP_SERIES_PATTERNS` (9 regexes, in source order). -/
def groupSeriesPats : List (List RTok) :=
  [ [.lit "▶️", .ws0, serieAlt],
    wordAlt ["series", "serie", "shows", "show", "novelas", "novela", "animes",
      "anime", "doramas", "dorama", "k-dramas", "k-drama", "kdramas", "kdrama"],
    hashSeriesNovelasPat,
    wordAlt ["temporadas", "temporada"],
    [serieAlt],
    [.altG [[.lit ":"], [.lit "|"]], .ws0, serieAlt],
    [.lit "|", .ws0, .lit "br", .ws0, .lit "|", .ws0, serieAlt],
    [.lit "[", .ws0, .lit "br", .ws0, .lit "]", .ws0, serieAlt],
    wordAlt ["desenhos"] ]

/-- `TITLE_LIVE_PATTERNS`. -/
def titleLivePats : List (List RTok) :=
  [wordAlt ["24/7", "24h", "live", "ao vivo"]]

/-- `TITLE_MOVIE_PATTERNS` (5 regexes, in source order). -/
def titleMoviePats : List (List RTok) :=
  [ [.lit "(", .digits 4 4, .lit ")"],
    [.lit "[", .digits 4 4, .lit "]"],
    wordAlt ["4k", "2160p", "1080p", "720p", "480p", "bluray", "webrip", "hdrip",
      "dvdrip", "hdcam", "web-dl", "bdrip", "hdts", "hd-ts", "cam"],
    wordAlt ["dublado", "dual", "leg", "legendado", "nacional", "dub", "sub"],
    wordAlt ["acao", "terror", "comedia", "drama", "suspense", "romance",
      "aventura", "animacao", "ficcao"] ]

/-- `TITLE_SERIES_PATTERNS` (9 regexes, in source order; a trailing `\d+`
is equivalent, for `is_match`, to a single `\d`). -/
def titleSeriesPats : List (List RTok) :=
  [ [.lit "s", .digits 1 2, .altG [[sepClass], []], .lit "e", .digits 1 2],
    [.bnd, .digits 1 2, .lit "x", .digits 1 2, .bnd],
    [.bnd, .lit "t", .digits 1 2, .altG [[sepClass], []], .lit "e", .digits 1 2, .bnd],
    [.bnd, .lit "temporada", .ws0, .digits 1 1],
    [.bnd, .lit "episodio", .ws0, .digits 1 1],
    [.bnd, .lit "season", .ws0, .digits 1 1],
    [.bnd, .lit "episode", .ws0, .digits 1 1],
    [.bnd, .altG [[.lit "capitulo"], [.lit "capítulo"]], .ws0, .digits 1 1],
    [.bnd, .lit "ep", .altG [[.lit "."], []], .ws0, .digits 1 1] ]

/-- `ContentClassifier::classify_by_group` (`classifier.rs` lines 187-235). -/
def classify_by_group (group : String) : MediaKind :=
  if group == "" then .unknown
  else
    let lower := lowerStr group
    let has_series := rxMatch seriesCheckPat lower
    let has_movies := rxMatch moviesCheckPat lower
    let has_24h := rxMatch pattern24hPat lower || rxMatch pattern247Pat lower
    if has_series && has_24h then .live
    else if has_series || rxMatch hashSeriesNovelasPat lower then .series
    else if has_movies || rxMatch hashFilmesPat lower then .movie
    else if groupLivePats.any (fun p => rxMatch p lower) then .live
    else if groupSeriesPats.any (fun p => rxMatch p lower) then .series
    else if groupMoviePats.any (fun p => rxMatch p lower) then .movie
    else .unknown

/-- `ContentClassifier::classify_by_title` (`classifier.rs` lines 238-291). -/
def classify_by_title (name group : String) : MediaKind :=
  if name == "" then .unknown
  else if group != "" && rxMatch sBulletPat (lowerStr group) then .series
  else if group != "" && rxMatch fBulletPat (lowerStr group) then .movie
  else if titleSeriesPats.any (fun p => rxMatch p (lowerStr name)) then .series
  else
    let has_movie_group := group != "" && rxMatch movieGroupCheckPat (lowerStr group)
    let has_series_pattern := rxMatch seriesPatternCheckPat (lowerStr name)
    if has_movie_group && !has_series_pattern then .movie
    else if 2 ≤ (titleMoviePats.countP (fun p => rxMatch p (lowerStr name))) then .movie
    else if titleLivePats.any (fun p => rxMatch p (lowerStr name)) then .live
    else .unknown

/-- `ContentClassifier::classify` (`classifier.rs` lines 131-184). -/
def classify (name group : String) : MediaKind :=
  if group != "" && rxMatch adultContentPat (lowerStr group) then .live
  else if rxMatch tsStreamPat (lowerStr group) || rxMatch tsStreamPat (lowerStr name) then .live
  else
    let combined := lowerStr (name ++ " " ++ group)
    if rxMatch pattern24hPat combined || rxMatch pattern247Pat combined then .live
    else if group != "" && rxMatch coletaneaPat (lowerStr group) then .movie
    else if group != "" && rxMatch cine24hPat (lowerStr group) then .live
    else if name != "" && rxMatchStart canal24hPat (lowerStr name) then .live
    else if name != "" && rxMatchStart cineTematicoPat (lowerStr name) then .live
    else if name != "" && rxMatchStart eventoHorarioPat name then .live
    else
      let group_kind := classify_by_group group
      if group_kind != .unknown then group_kind
      else classify_by_title name group

/-! ### Series extraction (`extract_series_info`, `classifier.rs` lines 386-441)

The three capture patterns `(.+?)\s+S(\d{1,2})E(\d{1,3})`,
`(.+?)\s+(\d{1,2})x(\d{1,3})\b` and `(.+?)\s+T(\d{1,2})E(\d{1,3})` are
implemented with the source's leftmost/lazy/greedy capture semantics.
The LRU memoization of the source caches a pure function and is omitted. -/

/-- `models/playlist.rs`: extracted series info. -/
structure ExtractedSeriesInfo where
  series_name : String
  season : Nat
  episode : Nat
  is_series : Bool
deriving DecidableEq, Repr

/-- Numeric value of a digit string. -/
def digitsToNat (ds : List Char) : Nat := ds.foldl (fun a c => a * 10 + (c.toNat - 48)) 0

/-- Index of the first occurrence of a character. -/
def findCharIdx (c : Char) : List Char → Option Nat
  | [] => none
  | x :: xs => if x = c then some 0 else (findCharIdx c xs).map (· + 1)

/-- `PREFIX_CLEANER = ^(\[.*?\]|\(.*?\)|⭐|★|•|\+|\-|=|#)\s*`, applied once
at the start (the anchor admits no further match for `replace_all`). -/
def prefixCleanerStrip (l : List Char) : List Char :=
  let core : Option (List Char) :=
    match l with
    | '[' :: rest => (findCharIdx ']' rest).map (fun i => rest.drop (i + 1))
    | '(' :: rest => (findCharIdx ')' rest).map (fun i => rest.drop (i + 1))
    | '⭐' :: rest => some rest
    | '★' :: rest => some rest
    | '•' :: rest => some rest
    | '+' :: rest => some rest
    | '-' :: rest => some rest
    | '=' :: rest => some rest
    | '#' :: rest => some rest
    | _ => none
  match core with
  | some rest => trimLeft rest
  | none => l

/-- `NUMBERING_CLEANER = ^\d+\.\s+`, applied once at the start. -/
def numberingStrip (l : List Char) : List Char :=
  let ds := l.takeWhile Char.isDigit
  if ds.isEmpty then l
  else
    match l.drop ds.length with
    | '.' :: rest =>
      match rest with
      | c :: _ => if isWS c then trimLeft rest else l
      | [] => l
    | _ => l

/-- `ContentClassifier::remove_prefixes`. -/
def remove_prefixes (title : String) : String :=
  rustTrim ⟨numberingStrip (prefixCleanerStrip title.data)⟩

/-- `\d{1,3}` greedy with nothing after it: up to three digits. -/
def matchEpisodeDigits (text : List Char) : Option Nat :=
  let ds := (text.takeWhile Char.isDigit).take 3
  if ds.isEmpty then none else some (digitsToNat ds)

/-- `(\d{1,2})E(\d{1,3})`-style tail: season digits (greedy, with the
backtracking forced by the following letter), the letter `mid`
(case-insensitively), then the episode digits. -/
def matchSDE (mid : Char) (text : List Char) : Option (Nat × Nat) :=
  match text with
  | [] => none
  | d1 :: rest1 =>
    if !d1.isDigit then none
    else
      match rest1 with
      | d2 :: rest2 =>
        if d2.isDigit then
          match rest2 with
          | e :: rest3 =>
            if lowerChar e = mid then
              (matchEpisodeDigits rest3).map (fun ep => (digitsToNat [d1, d2], ep))
            else none
          | [] => none
        else if lowerChar d2 = mid then
          (matchEpisodeDigits rest2).map (fun ep => (digitsToNat [d1], ep))
        else none
      | [] => none

/-- `(\d{1,2})x(\d{1,3})\b` tail: like `matchSDE` but the episode digits
must be followed by a word boundary. -/
def matchAltEp (text : List Char) : Option Nat :=
  let run := text.takeWhile Char.isDigit
  if run.isEmpty || 3 < run.length then none
  else
    match text.drop run.length with
    | [] => some (digitsToNat run)
    | c :: _ => if isWordChar c then none else some (digitsToNat run)

/-- Season digits then `x` then bounded episode digits. -/
def matchAltSDE (text : List Char) : Option (Nat × Nat) :=
  match text with
  | [] => none
  | d1 :: rest1 =>
    if !d1.isDigit then none
    else
      match rest1 with
      | d2 :: rest2 =>
        if d2.isDigit then
          match rest2 with
          | x :: rest3 =>
            if lowerChar x = 'x' then
              (matchAltEp rest3).map (fun ep => (digitsToNat [d1, d2], ep))
            else none
          | [] => none
        else if lowerChar d2 = 'x' then
          (matchAltEp rest2).map (fun ep => (digitsToNat [d1], ep))
        else none
      | [] => none

/-- `\s+` then a head letter (for `S`/`T` patterns) then the digit tail. -/
def matchTailLetter (head : Char) (text : List Char) : Option (Nat × Nat) :=
  match text with
  | [] => none
  | c :: cs =>
    if isWS c then
      match trimLeft cs with
      | s :: rest => if lowerChar s = head then matchSDE 'e' rest else none
      | [] => none
    else none

/-- `\s+` then the `(\d{1,2})x(\d{1,3})\b` tail. -/
def matchTailX (text : List Char) : Option (Nat × Nat) :=
  match text with
  | [] => none
  | c :: cs => if isWS c then matchAltSDE (trimLeft cs) else none

/-- Scan for the lazy `(.+?)` split: the earliest position (with a
non-empty prefix) where `tail` matches; the captured name is trimmed. -/
def seriesScanAux (tail : List Char → Option (Nat × Nat)) (pre : List Char) :
    List Char → Option (String × Nat × Nat)
  | [] => none
  | c :: cs =>
    match (if pre.isEmpty then none else tail (c :: cs)) with
    | some (se, ep) => some (rustTrim ⟨pre.reverse⟩, se, ep)
    | none => seriesScanAux tail (c :: pre) cs

/-- `ContentClassifier::extract_series_info`: try `SxxExx`, then `NxNN`,
then `TxxExx`, on the prefix-cleaned name. -/
def extract_series_info (name : String) : Option ExtractedSeriesInfo :=
  let clean := (remove_prefixes name).data
  match seriesScanAux (matchTailLetter 's') [] clean with
  | some (n, s, e) => some ⟨n, s, e, true⟩
  | none =>
    match seriesScanAux matchTailX [] clean with
    | some (n, s, e) => some ⟨n, s, e, true⟩
    | none =>
      match seriesScanAux (matchTailLetter 't') [] clean with
      | some (n, s, e) => some ⟨n, s, e, true⟩
      | none => none

/-! ## M3U streaming parser

`src/server-rust/src/services/m3u_parser.rs`.  The parse loop of
`M3UParser::parse_and_cache` (lines 349-668) is modelled as a pure function
over the list of lines delivered by `read_line` (line terminators already
split off; the byte-size guard is applied to the line content).  The
streaming writer is modelled by the list of items handed to it, in order;
network, database and progress-reporting effects are outside the model. -/

/-- `MAX_LINE_BYTES = 32 * 1024`. -/
def MAX_LINE_BYTES : Nat := 32 * 1024

/-- Parsed EXTINF data (the parsed duration is bound to the unused field
`_duration` in the source and omitted here). -/
structure ExtinfData where
  attributes : List (String × String)
  title : String
deriving DecidableEq, Repr

/-- Maximal `\w+` run split off the front. -/
def wordRun (l : List Char) : List Char × List Char :=
  (l.takeWhile isWordChar, l.dropWhile isWordChar)

/-- Parse `\w+(?:-\w+)*` off the front, returning the key and the rest. -/
def keyRun (fuel : Nat) (l : List Char) : Option (List Char × List Char) :=
  match fuel with
  | 0 => none
  | fuel + 1 =>
    match l with
    | c :: _ =>
      if isWordChar c then
        let (w, rest) := wordRun l
        match rest with
        | '-' :: c2 :: _ =>
          if isWordChar c2 then
            match keyRun fuel (rest.drop 1) with
            | some (k, rest2) => some (w ++ ['-'] ++ k, rest2)
            | none => some (w, rest)
          else some (w, rest)
        | _ => some (w, rest)
      else none
    | [] => none

/-- Try `ATTR_REGEX = (\w+(?:-\w+)*)="([^"]*)"` at this exact position.
Returns the captured key and value and the rest of the input. -/
def tryAttrAt (l : List Char) : Option (String × String × List Char) :=
  match keyRun (l.length + 1) l with
  | none => none
  | some (k, rest) =>
    match rest with
    | '=' :: '"' :: rest2 =>
      let v := rest2.takeWhile (· ≠ '"')
      match rest2.drop v.length with
      | '"' :: rest3 => some (⟨k⟩, ⟨v⟩, rest3)
      | _ => none
    | _ => none

/-- All non-overlapping leftmost matches of `ATTR_REGEX`
(`Regex::captures_iter`). -/
def scanAttrs : Nat → List Char → List (String × String)
  | 0, _ => []
  | _, [] => []
  | fuel + 1, c :: cs =>
    match tryAttrAt (c :: cs) with
    | some (k, v, rest) => (k, v) :: scanAttrs fuel rest
    | none => scanAttrs fuel cs

/-- `HashMap` lookup: the last insert of a duplicate key wins. -/
def attrsGet (attrs : List (String × String)) (k : String) : Option String :=
  (attrs.reverse.find? (fun p => p.1 == k)).map (·.2)

/-- `parse_extinf` (`m3u_parser.rs` lines 93-125). -/
def parse_extinf (line : String) : Option ExtinfData :=
  if !startsWithS line "#EXTINF:" then none
  else
    let content := (line.data.drop 8)
    match findCharIdx ',' content with
    | none => none
    | some i =>
      let header := content.take i
      let title := rustTrim ⟨content.drop (i + 1)⟩
      some { attributes := scanAttrs (header.length + 1) header, title := title }

/-- Collapse every run of two or more whitespace characters into a single
space (`MULTI_SPACE_REGEX = \s{2,}` replaced by one space; a lone
whitespace character is kept as-is).  Structurally recursive on a fuel that
the wrapper instantiates with the list length (each step shortens the list,
so that fuel is never exhausted). -/
def collapseWsF : Nat → List Char → List Char
  | 0, l => l
  | _ + 1, [] => []
  | _ + 1, [c] => [c]
  | fuel + 1, c :: c2 :: cs =>
    if isWS c && isWS c2 then ' ' :: collapseWsF fuel (trimLeft cs)
    else c :: collapseWsF fuel (c2 :: cs)

/-- `normalize_text` (`m3u_parser.rs` lines 137-140). -/
def normalize_text (text : String) : String :=
  let t := (rustTrim text).data
  ⟨collapseWsF t.length t⟩

/-- Wrap an integer into the `i32` range. -/
def wrap32i (n : Int) : Int := (n + 2 ^ 31) % 2 ^ 32 - 2 ^ 31

/-- `generate_item_id` (`m3u_parser.rs` lines 84-89): a JS-style wrapping
`i32` fold over the characters of the URL, then `item_<abs>_<index>`. -/
def generate_item_id (url : String) (index : Nat) : String :=
  let h := url.data.foldl (fun acc c => wrap32i (wrap32i (acc * 32) - acc + c.toNat)) 0
  "item_" ++ natToStr h.natAbs ++ "_" ++ natToStr index

/-! ### Parser data model (`models/playlist.rs`, `m3u_parser.rs`)

The `year`/`quality` metadata produced by `ContentClassifier::parse_title`
is copied through the series structures unchanged by the source and is not
constrained by any claim; those payload fields (and the item's
`parsed_title`/`epg_id`) are omitted from the embedding. -/

/-- `PlaylistStats`. -/
structure PlaylistStats where
  total_items : Nat := 0
  live_count : Nat := 0
  movie_count : Nat := 0
  series_count : Nat := 0
  unknown_count : Nat := 0
  group_count : Nat := 0
deriving DecidableEq, Repr

/-- `PlaylistItem` (the fields the claims are about). -/
structure PlaylistItem where
  id : String
  name : String
  url : String
  logo : Option String
  group : String
  media_kind : MediaKind
  series_id : Option String
  season_number : Option Nat
  episode_number : Option Nat
deriving DecidableEq, Repr

/-- `SeriesRunEpisode`. -/
structure SeriesRunEpisode where
  item_id : String
  name : String
  season : Nat
  episode : Nat
  url : String
deriving DecidableEq, Repr

/-- `SeriesRun`: the current run of the RLE grouping. -/
structure SeriesRun where
  series_key : String
  series_name : String
  group : String
  logo : Option String
  episodes : List SeriesRunEpisode
deriving DecidableEq, Repr

/-- `SeriesAccumulator`. -/
structure SeriesAccumulator where
  id : String
  name : String
  group : String
  logo : Option String
  episodes : List SeriesRunEpisode
deriving DecidableEq, Repr

/-- `SeriesEpisode`. -/
structure SeriesEpisode where
  item_id : String
  season : Nat
  episode : Nat
  name : String
  url : String
deriving DecidableEq, Repr

/-- `SeasonData`. -/
structure SeasonData where
  season_number : Nat
  episodes : List SeriesEpisode
deriving DecidableEq, Repr

/-- `SeriesInfo` (aggregate totals and the per-season data). -/
structure SeriesInfo where
  id : String
  name : String
  logo : Option String
  group : String
  total_episodes : Nat
  total_seasons : Nat
  first_season : Nat
  last_season : Nat
  seasons_data : Option (List SeasonData)
deriving DecidableEq, Repr

/-- `PlaylistGroup`. -/
structure PlaylistGroup where
  id : String
  name : String
  media_kind : MediaKind
  item_count : Nat
  logo : Option String
deriving DecidableEq, Repr

/-- The `entry(...).or_insert_with(...)` / `episodes.extend(...)` body of
`flush_run_to_accumulator` over the association-list model of the
accumulator map. -/
def flushGo (run : SeriesRun) (series_id : String) :
    List (String × SeriesAccumulator) → List (String × SeriesAccumulator)
  | [] => [(run.series_key,
      { id := series_id, name := run.series_name, group := run.group,
        logo := run.logo, episodes := run.episodes })]
  | (k, acc) :: rest =>
    if k = run.series_key then
      (k, { acc with episodes := acc.episodes ++ run.episodes }) :: rest
    else (k, acc) :: flushGo run series_id rest

/-- `flush_run_to_accumulator` (`m3u_parser.rs` lines 152-174): merge the
run's episodes into the accumulator entry of its series key, creating the
entry (with the run's identity data and the id `series_<SHA1(key)>`) if
absent.  The `HashMap` is modelled as an association list in insertion
order. -/
def flush_run_to_accumulator (accum : List (String × SeriesAccumulator))
    (run : SeriesRun) : List (String × SeriesAccumulator) :=
  if run.episodes.isEmpty then accum
  else flushGo run ("series_" ++ hash_url run.series_key) accum

/-- Lexicographic episode order: by season, then by episode number
(the comparator of `episodes.sort_by` in `build_series_info`). -/
def epLex (a b : SeriesRunEpisode) : Prop :=
  a.season < b.season ∨ (a.season = b.season ∧ a.episode ≤ b.episode)

instance : DecidableRel epLex := fun a b => by
  unfold epLex; infer_instance

instance : IsTotal SeriesRunEpisode epLex :=
  ⟨fun a b => by unfold epLex; omega⟩

instance : IsTrans SeriesRunEpisode epLex :=
  ⟨fun a b c hab hbc => by unfold epLex at *; omega⟩

/-- Order on episodes inside a season (`sort_by_key(|e| e.episode)`). -/
def epNumLe (a b : SeriesEpisode) : Prop := a.episode ≤ b.episode

instance : DecidableRel epNumLe := fun a b => by unfold epNumLe; infer_instance
instance : IsTotal SeriesEpisode epNumLe := ⟨fun a b => by unfold epNumLe; omega⟩
instance : IsTrans SeriesEpisode epNumLe :=
  ⟨fun a b c hab hbc => by unfold epNumLe at *; omega⟩

/-- Order on seasons (`sort_by_key(|s| s.season_number)`). -/
def sdLe (a b : SeasonData) : Prop := a.season_number ≤ b.season_number

instance : DecidableRel sdLe := fun a b => by unfold sdLe; infer_instance
instance : IsTotal SeasonData sdLe := ⟨fun a b => by unfold sdLe; omega⟩
instance : IsTrans SeasonData sdLe :=
  ⟨fun a b c hab hbc => by unfold sdLe at *; omega⟩

/-- Group a (sorted) episode list by season number.  The source inserts
into a `HashMap` and sorts the collected seasons afterwards; the map is
modelled as an association list in first-encounter order (the final
`sort_by_key` makes the modelled order immaterial). -/
def groupInsert (m : List (Nat × List SeriesEpisode)) (ep : SeriesEpisode) :
    List (Nat × List SeriesEpisode) :=
  match m with
  | [] => [(ep.season, [ep])]
  | (k, eps) :: rest =>
    if k = ep.season then (k, eps ++ [ep]) :: rest
    else (k, eps) :: groupInsert rest ep

/-- Fold of `groupInsert` over an episode list. -/
def groupBySeason (l : List SeriesEpisode) : List (Nat × List SeriesEpisode) :=
  l.foldl groupInsert []

/-- Conversion pushed into the seasons map by the source. -/
def toSeriesEpisode (ep : SeriesRunEpisode) : SeriesEpisode :=
  { item_id := ep.item_id, season := ep.season, episode := ep.episode,
    name := ep.name, url := ep.url }

/-- One entry of the final season list: the season number and its
episodes sorted by episode number (`eps.sort_by_key(|e| e.episode)`). -/
def mkSeasonData (p : Nat × List SeriesEpisode) : SeasonData :=
  { season_number := p.1, episodes := List.insertionSort epNumLe p.2 }

/-- `build_series_info` (`m3u_parser.rs` lines 177-238): sort episodes by
`(season, episode)` (Rust `sort_by` is stable, as is `insertionSort`),
group them by season, sort each season's episodes by episode number, sort
the seasons by season number, and compute the aggregate stats. -/
def build_series_info (accum : SeriesAccumulator) : SeriesInfo :=
  let episodes := List.insertionSort epLex accum.episodes
  let seasons_map := groupBySeason (episodes.map toSeriesEpisode)
  let seasons_data := List.insertionSort sdLe (seasons_map.map mkSeasonData)
  let total_episodes := episodes.length
  let total_seasons := seasons_data.length
  let first_season := ((seasons_data.head?).map (·.season_number)).getD 0
  let last_season := ((seasons_data.getLast?).map (·.season_number)).getD 0
  { id := accum.id, name := accum.name, logo := accum.logo, group := accum.group,
    total_episodes := total_episodes, total_seasons := total_seasons,
    first_season := first_season, last_season := last_season,
    seasons_data := some seasons_data }

/-! ### The parse loop -/

/-- The mutable state of the parse loop of `parse_and_cache`. -/
structure LoopState where
  current_extinf : Option ExtinfData := none
  item_index : Nat := 0
  found_header : Bool := false
  stats : PlaylistStats := {}
  /-- `groups : HashMap<String, (MediaKind, usize, Option<String>)>`,
  modelled in insertion order. -/
  groups : List (String × MediaKind × Nat × Option String) := []
  series_accum : List (String × SeriesAccumulator) := []
  current_run : Option SeriesRun := none
  /-- `seen_urls : HashSet<u64>`. -/
  seen_urls : List Nat := []
  duplicates_skipped : Nat := 0
  /-- The items handed to the streaming writer, in order. -/
  items : List PlaylistItem := []
deriving Repr

/-- `groups.entry(name).or_insert((kind, 0, logo)); entry.1 += 1`. -/
def groupsBump (gs : List (String × MediaKind × Nat × Option String))
    (name : String) (kind : MediaKind) (logo : Option String) :
    List (String × MediaKind × Nat × Option String) :=
  match gs with
  | [] => [(name, kind, 1, logo)]
  | (n, k, c, l) :: rest =>
    if n = name then (n, k, c + 1, l) :: rest
    else (n, k, c, l) :: groupsBump rest name kind logo

/-- `stats.total_items += 1` plus the per-kind counter. -/
def statsBump (s : PlaylistStats) (kind : MediaKind) : PlaylistStats :=
  let s := { s with total_items := s.total_items + 1 }
  match kind with
  | .live => { s with live_count := s.live_count + 1 }
  | .movie => { s with movie_count := s.movie_count + 1 }
  | .series => { s with series_count := s.series_count + 1 }
  | .unknown => { s with unknown_count := s.unknown_count + 1 }

/-- `if let Some(run) = current_run.take() { flush_run_to_accumulator(...) }`. -/
def flushRunState (st : LoopState) : LoopState :=
  match st.current_run with
  | some run =>
    { st with series_accum := flush_run_to_accumulator st.series_accum run,
              current_run := none }
  | none => st

/-- The RLE series-tracking block of the parse loop: flush the current run
when the series key changes, start a new run, and append the episode. -/
def seriesTrack (st : LoopState) (info : ExtractedSeriesInfo)
    (group_title : String) (tvg_logo : Option String)
    (item_id name stream_url : String) : LoopState :=
  let series_key := group_title ++ "_" ++ info.series_name
  let is_same_run := match st.current_run with
    | some run => run.series_key == series_key
    | none => false
  let st :=
    if !is_same_run then
      let st := flushRunState st
      let newRun : SeriesRun :=
        { series_key := series_key, series_name := info.series_name,
          group := group_title, logo := tvg_logo, episodes := [] }
      { st with current_run := some newRun }
    else st
  match st.current_run with
  | some run =>
    let newEp : SeriesRunEpisode :=
      { item_id := item_id, name := name, season := info.season,
        episode := info.episode, url := stream_url }
    { st with current_run := some { run with episodes := run.episodes ++ [newEp] } }
  | none => st

/-- The tail of the stream-URL branch once name, group, kind and series
info are computed: RLE series tracking, stats/groups update, item
construction (the RLE branch also fixes the item's `series_id` to
`series_<SHA1(group ++ "_" ++ series_name)>` and its season/episode). -/
def processItemCore (st : LoopState) (name group_title : String)
    (tvg_logo : Option String) (media_kind : MediaKind)
    (series_info : Option ExtractedSeriesInfo) (stream_url : String) :
    LoopState :=
  let stAfter :=
    match series_info with
    | some info =>
      seriesTrack st info group_title tvg_logo
        (generate_item_id stream_url st.item_index) name stream_url
    | none => flushRunState st
  let series_id :=
    series_info.map (fun info =>
      "series_" ++ hash_url (group_title ++ "_" ++ info.series_name))
  let season_number := series_info.map (fun info => info.season)
  let episode_number := series_info.map (fun info => info.episode)
  let stats := statsBump stAfter.stats media_kind
  let groups := groupsBump stAfter.groups group_title media_kind tvg_logo
  let item : PlaylistItem :=
    { id := generate_item_id stream_url stAfter.item_index, name := name,
      url := stream_url, logo := tvg_logo, group := group_title,
      media_kind := media_kind, series_id := series_id,
      season_number := season_number, episode_number := episode_number }
  { stAfter with stats := stats, groups := groups,
                 items := stAfter.items ++ [item],
                 item_index := stAfter.item_index + 1 }

/-- The body of the stream-URL branch of the parse loop
(`m3u_parser.rs` lines 468-594): dedup, normalize, classify, then
`processItemCore`. -/
def processUrl (st : LoopState) (extinf : ExtinfData) (stream_url : String) :
    LoopState :=
  let url_hash := url_dedup_hash stream_url
  if st.seen_urls.contains url_hash then
    { st with duplicates_skipped := st.duplicates_skipped + 1 }
  else
    let st := { st with seen_urls := st.seen_urls ++ [url_hash] }
    let name := normalize_text extinf.title
    let group_title := normalize_text ((attrsGet extinf.attributes "group-title").getD "Sem Grupo")
    let tvg_logo := attrsGet extinf.attributes "tvg-logo"
    let media_kind := classify name group_title
    let series_info := if media_kind = .series then extract_series_info name else none
    processItemCore st name group_title tvg_logo media_kind series_info stream_url

/-- One iteration of the parse loop for one line (the `read_line` buffer
includes the terminator; the byte-size guard is modelled on the line
content). -/
def parseStep (st : LoopState) (line : String) : Except String LoopState :=
  if MAX_LINE_BYTES < utf8Len line then
    .error ("Playlist line exceeds max length of " ++ natToStr MAX_LINE_BYTES ++ " bytes")
  else
    let trimmed := rustTrim line
    if trimmed == "" then .ok st
    else if trimmed == "#EXTM3U" then .ok { st with found_header := true }
    else if startsWithS trimmed "#" && !startsWithS trimmed "#EXTINF:" then .ok st
    else if startsWithS trimmed "#EXTINF:" then
      .ok { st with current_extinf := parse_extinf trimmed }
    else
      match st.current_extinf with
      | some extinf =>
        let st := { st with current_extinf := none }
        if startsWithS trimmed "http" then .ok (processUrl st extinf trimmed)
        else .ok st
      | none => .ok st

/-- The result of a successful parse: final stats, duplicate counter, items
written, the group list and the series list of the finalization phase. -/
structure ParseResult where
  stats : PlaylistStats
  duplicates_skipped : Nat
  items : List PlaylistItem
  groups : List PlaylistGroup
  series : List SeriesInfo
deriving Repr

/-- Run the loop over all lines. -/
def runLoop (st : LoopState) : List String → Except String LoopState
  | [] => .ok st
  | line :: rest =>
    match parseStep st line with
    | .ok st' => runLoop st' rest
    | .error e => .error e

/-- `M3UParser::parse_and_cache` (`m3u_parser.rs` lines 349-668), the pure
parsing/finalization core: run the loop, flush the last run, fail unless a
`#EXTM3U` line was seen, then build the group and series lists and the
final stats. -/
def parse_and_cache (lines : List String) : Except String ParseResult :=
  match runLoop {} lines with
  | .error e => .error e
  | .ok st0 =>
  let st := flushRunState st0
  if !st.found_header then
    .error "Invalid playlist format (missing #EXTM3U header)"
  else
    let groups_vec := st.groups.map (fun g =>
      { id := "group_" ++ hash_url g.1, name := g.1, media_kind := g.2.1,
        item_count := g.2.2.1, logo := g.2.2.2 : PlaylistGroup })
    let stats := { st.stats with group_count := groups_vec.length }
    let series_vec := st.series_accum.map (fun p => build_series_info p.2)
    .ok { stats := stats, duplicates_skipped := st.duplicates_skipped,
          items := st.items, groups := groups_vec, series := series_vec }

/-! ## Bulk-copy line serialization

`src/server-rust/src/db/models.rs`, `NewItem` and `format_copy_line`
(lines 316-339), and the COPY text protocol consumed by
`StreamingDbWriter::flush_batch` (`db/repository/items.rs` lines 47-71). -/

/-- `NewItem` (the row written through the COPY protocol; UUIDs are
modelled as strings). -/
structure NewItem where
  playlist_id : String
  item_hash : String
  name : String
  url : String
  logo : Option String
  group_name : String
  media_kind : String
  parsed_title : Option String
  parsed_year : Option Int
  parsed_quality : Option String
  series_id : Option String
  season_number : Option Int
  episode_number : Option Int
  sort_order : Int
deriving DecidableEq, Repr

/-- The `escape` closure of `format_copy_line`:
`s.replace('\t', " ").replace('\n', " ").replace('\r', "")` — the three
sequential single-character replacements fused into one pass (tab and
newline become a space, carriage return becomes the empty string). -/
def escapeCopy (s : String) : String :=
  ⟨s.data.filterMap (fun c =>
    if c = '\r' then none
    else if c = '\t' ∨ c = '\n' then some ' '
    else some c)⟩

/-- An optional string field: escaped value or the `\N` NULL marker. -/
def optEsc (o : Option String) : String :=
  match o with
  | some s => escapeCopy s
  | none => "\\N"

/-- An optional numeric field: `to_string` or the `\N` NULL marker. -/
def optNum (o : Option Int) : String :=
  match o with
  | some n => intToStr n
  | none => "\\N"

/-- The 15 tab-separated fields of `format_copy_line`, in source order.
The source draws a fresh `Uuid::new_v4()` for the first column; the model
takes it as the `uuid` argument. -/
def copyFields (uuid : String) (item : NewItem) : List String :=
  [ uuid, item.playlist_id, escapeCopy item.item_hash, escapeCopy item.name,
    escapeCopy item.url, optEsc item.logo, escapeCopy item.group_name,
    escapeCopy item.media_kind, optEsc item.parsed_title, optNum item.parsed_year,
    optEsc item.parsed_quality, optEsc item.series_id, optNum item.season_number,
    optNum item.episode_number, intToStr item.sort_order ]

/-- Join strings with tab separators (the `format!` string of
`format_copy_line` is `"{}\t{}\t…\t{}\n"`). -/
def tabJoin : List String → String
  | [] => ""
  | [f] => f
  | f :: rest => f ++ "\t" ++ tabJoin rest

/-- `format_copy_line` (`db/models.rs` lines 316-339): the fields joined by
tabs, terminated by a newline. -/
def format_copy_line (uuid : String) (item : NewItem) : String :=
  tabJoin (copyFields uuid item) ++ "\n"

/-- Split a character list at tabs. -/
def splitTabs (l : List Char) : List (List Char) :=
  match l with
  | [] => [[]]
  | c :: cs =>
    let r := splitTabs cs
    if c = '\t' then [] :: r
    else
      match r with
      | h :: t => (c :: h) :: t
      | [] => [[c]]

/-- Parsing one line of the COPY text format (`FORMAT text`): strip the
line terminator and split the raw field texts at tabs. -/
def parse_copy_line (line : String) : List String :=
  let content :=
    match line.data.reverse with
    | '\n' :: rest => rest.reverse
    | _ => line.data
  (splitTabs content).map (fun l => ⟨l⟩)

/-! ## HLS manifest proxy

`src/server-rust/src/routes/proxy.rs`: `rewrite_manifest_urls` (lines
76-113), `resolve_url` (116-127), `build_proxy_url` (130-136),
`rewrite_uri_attribute` (139-160). -/

/-- Modelled from the spec: the manifest's segment and key URIs are
"resolved (relative to the original playlist URL)" — RFC 3986 relative
resolution as performed by the external `url` crate (`Url::parse` /
`Url::join`), restricted to the base-with-path / relative-path /
absolute-path cases exercised here. -/
structure UrlM where
  scheme : String
  hostPort : String
  /-- always starts with `/` -/
  path : String
deriving Repr

/-- Parse `scheme://host[:port]/path`. -/
def urlParseM (s : String) : Option UrlM :=
  let (scheme, rest) :=
    if startsWithS s "http://" then (some "http", dropS s 7)
    else if startsWithS s "https://" then (some "https", dropS s 8)
    else (none, s)
  match scheme with
  | none => none
  | some sch =>
    let host := rest.data.takeWhile (· ≠ '/')
    if host.isEmpty then none
    else
      let path := rest.data.drop host.length
      some { scheme := sch, hostPort := ⟨host⟩,
             path := if path.isEmpty then "/" else ⟨path⟩ }

/-- The base path with its last segment removed (kept up to and including
the last `/`). -/
def dirPath (p : String) : String :=
  ⟨(p.data.reverse.dropWhile (· ≠ '/')).reverse⟩

/-- `Url::join` for the cases used by the proxy: an absolute path replaces
the base path, a relative reference replaces the last segment. -/
def urlJoinM (base : UrlM) (rel : String) : String :=
  if startsWithS rel "/" then base.scheme ++ "://" ++ base.hostPort ++ rel
  else base.scheme ++ "://" ++ base.hostPort ++ dirPath base.path ++ rel

/-- `resolve_url` (`proxy.rs` lines 116-127). -/
def resolve_url (url : String) (base : UrlM) : String :=
  if startsWithS url "http://" || startsWithS url "https://" then url
  else urlJoinM base url

/-- `urlencoding::encode`: percent-encode every UTF-8 byte outside the
unreserved set `A-Z a-z 0-9 - _ . ~`, with uppercase hex. -/
def percentEncode (s : String) : String :=
  ⟨(utf8Bytes s).flatMap (fun b =>
    if (65 ≤ b ∧ b ≤ 90) ∨ (97 ≤ b ∧ b ≤ 122) ∨ (48 ≤ b ∧ b ≤ 57) ∨
        b = 45 ∨ b = 95 ∨ b = 46 ∨ b = 126 then
      [Char.ofNat b]
    else
      ['%', (if b / 16 < 10 then Char.ofNat (48 + b / 16) else Char.ofNat (55 + b / 16)),
       (if b % 16 < 10 then Char.ofNat (48 + b % 16) else Char.ofNat (55 + b % 16))])⟩

/-- `build_proxy_url` (`proxy.rs` lines 130-136). -/
def build_proxy_url (target_url proxy_base : String) (referer : Option String) : String :=
  match referer with
  | some r => proxy_base ++ "/api/proxy/hls?url=" ++ percentEncode target_url ++
      "&referer=" ++ percentEncode r
  | none => proxy_base ++ "/api/proxy/hls?url=" ++ percentEncode target_url

/-- Index of the first occurrence of a substring. -/
def findSubIdx (pat : List Char) : List Char → Option Nat
  | [] => if isPrefixL pat [] then some 0 else none
  | c :: cs =>
    if isPrefixL pat (c :: cs) then some 0
    else (findSubIdx pat cs).map (· + 1)

/-- `rewrite_uri_attribute` (`proxy.rs` lines 139-160), including its slice
arithmetic: `uri_start` points just past `URI="`, yet the format string
re-emits `URI="` after `line[..uri_start]` and the tail slice begins at the
closing quote. -/
def rewrite_uri_attribute (line : String) (base : UrlM) (proxy_base : String)
    (referer : Option String) : String :=
  match findSubIdx "URI=\"".data line.data with
  | none => line
  | some pos =>
    let uri_start := pos + 5
    let rest := line.data.drop uri_start
    match findCharIdx '"' rest with
    | none => line
    | some uri_end =>
      let uri : String := ⟨rest.take uri_end⟩
      let absolute_url := resolve_url uri base
      let proxied := build_proxy_url absolute_url proxy_base referer
      ⟨line.data.take uri_start⟩ ++ "URI=\"" ++ proxied ++ "\"" ++
        ⟨line.data.drop (uri_start + uri_end)⟩

/-- `str::lines`: split at `\n`, dropping a final empty piece, and strip a
trailing `\r` from each line. -/
def rustLines (s : String) : List String :=
  let pieces := (splitTabs (s.data.map (fun c => if c = '\n' then '\t' else c))).map
    (fun l => l.map (fun c => if c = '\t' then '\n' else c))
  let pieces := match pieces.reverse with
    | [] :: rest => rest.reverse
    | _ => pieces
  pieces.map (fun l => ⟨match l.reverse with | '\r' :: r => r.reverse | _ => l⟩)

/-- `rewrite_manifest_urls` (`proxy.rs` lines 76-113): blank lines kept,
tag lines kept verbatim unless they carry `URI=`, data lines resolved
against the manifest URL and pointed at the proxy. -/
def rewrite_manifest_urls (manifest base_url proxy_base : String)
    (referer : Option String) : String :=
  match urlParseM base_url with
  | none => manifest
  | some base =>
    (rustLines manifest).foldl (fun result line =>
      let trimmed := rustTrim line
      if trimmed == "" then result ++ "\n"
      else if startsWithS trimmed "#" then
        if containsSub trimmed "URI=" then
          result ++ rewrite_uri_attribute trimmed base proxy_base referer ++ "\n"
        else result ++ line ++ "\n"
      else
        result ++ build_proxy_url (resolve_url trimmed base) proxy_base referer ++ "\n")
      ""

/-! ## Xtream normalization helpers

`src/server-rust/src/services/xtream/types.rs`: `split_csv` (lines
299-308), `parse_rating` (328-343), `parse_duration_to_secs` (347-384). -/

/-- Split a character list at a separator character (Rust `str::split`). -/
def splitOnChar (sep : Char) (l : List Char) : List (List Char) :=
  match l with
  | [] => [[]]
  | c :: cs =>
    let r := splitOnChar sep cs
    if c = sep then [] :: r
    else
      match r with
      | h :: t => (c :: h) :: t
      | [] => [[c]]

/-- `split_csv`: split at commas, trim each piece, drop empties. -/
def split_csv (s : Option String) : List String :=
  match s with
  | none => []
  | some v =>
    ((splitOnChar ',' v.data).map (fun p => rustTrim ⟨p⟩)).filter (fun p => p != "")

/-- `i64::from_str`: optional sign then one or more ASCII digits, nothing
else. -/
def parseI64 (s : String) : Option Int :=
  let (sign, ds) :=
    match s.data with
    | '-' :: rest => ((-1 : Int), rest)
    | '+' :: rest => ((1 : Int), rest)
    | l => ((1 : Int), l)
  if ds.isEmpty || !(ds.all Char.isDigit) then none
  else some (sign * (digitsToNat ds : Int))

/-- `f32::from_str` restricted to plain decimal literals
(`[+-]?digits[.digits]`), modelled as an exact rational — exact for every
input considered by the claims (`85` is exactly representable and `85/10`
rounds to the exact `8.5`). -/
def parseF32 (s : String) : Option ℚ :=
  let (sign, ds) :=
    match s.data with
    | '-' :: rest => ((-1 : ℚ), rest)
    | '+' :: rest => ((1 : ℚ), rest)
    | l => ((1 : ℚ), l)
  match splitOnChar '.' ds with
  | [ip] =>
    if ip.isEmpty || !(ip.all Char.isDigit) then none
    else some (sign * (digitsToNat ip : ℚ))
  | [ip, fp] =>
    if (ip.isEmpty && fp.isEmpty) || !(ip.all Char.isDigit) || !(fp.all Char.isDigit) then none
    else some (sign * ((digitsToNat ip : ℚ) + (digitsToNat fp : ℚ) / (10 : ℚ) ^ fp.length))
  | _ => none

/-- `parse_rating`: trim; empty → `None`; parse as float; values above 10
are treated as a 0-100 scale and divided by 10. -/
def parse_rating (s : Option String) : Option ℚ :=
  match s with
  | none => none
  | some r =>
    let trimmed := rustTrim r
    if trimmed == "" then none
    else (parseF32 trimmed).map (fun v => if 10 < v then v / 10 else v)

/-- `parse_duration_to_secs`: raw seconds, else `HH:MM:SS` or `MM:SS`,
else `N min`. -/
def parse_duration_to_secs (s : Option String) : Option Int :=
  match s with
  | none => none
  | some s =>
    let trimmed := rustTrim s
    match parseI64 trimmed with
    | some secs => some secs
    | none =>
      if containsSub trimmed ":" then
        match (splitOnChar ':' trimmed.data).map (fun p => parseI64 ⟨p⟩) with
        | [some h, some m, some sec] => some (h * 3600 + m * 60 + sec)
        | [some m, some sec] => some (m * 60 + sec)
        | _ => durationMinFallback trimmed
      else durationMinFallback trimmed
where
  /-- the trailing `"N min"` branch: lowercase, and if it contains `min`,
  collect all ASCII digits and multiply by 60. -/
  durationMinFallback (trimmed : String) : Option Int :=
    let lower := lowerStr trimmed
    if containsSub lower "min" then
      let num := lower.data.filter Char.isDigit
      if num.isEmpty then none else some ((digitsToNat num : Int) * 60)
    else none

/-! ## Ingestion admission and cache validation

`src/server-rust/src/routes/playlist.rs`: `parse_playlist` (lines 41-204)
and `validate_cache` (383-411); `src/server-rust/src/services/db_cache.rs`:
`DbCacheService::get_metadata` (29-62). -/

/-- The externally observable decision of the `parse_playlist` admission
handler. -/
inductive AdmitOutcome where
  /-- 400: empty URL or not `http…` -/
  | badRequest
  /-- an active progress record was found: return `status: parsing`
  immediately, leaving playlist, progress and jobs untouched -/
  | alreadyParsing
  /-- a cached playlist with items exists: return `status: complete` with
  its stats -/
  | completeFromCache
  /-- initialize the progress record and spawn the background job -/
  | startJob
  /-- same, after deleting a playlist row that had `total_items = 0` -/
  | deleteEmptyThenStartJob
deriving DecidableEq, Repr

/-- `parse_playlist` admission (`routes/playlist.rs` lines 41-204) as a
function of the request URL, the Redis progress status for the hash (if
any), and the `total_items` of an existing playlist row for the hash (if
any).  The device-scoped deletion that precedes these checks touches only
rows keyed by the request's `device_id` and is not part of the decision. -/
def parse_playlist_admission (url : String) (progressStatus : Option String)
    (existingTotalItems : Option Int) : AdmitOutcome :=
  if url == "" || !startsWithS url "http" then .badRequest
  else
    let afterProgress : AdmitOutcome :=
      match existingTotalItems with
      | some total => if 0 < total then .completeFromCache else .deleteEmptyThenStartJob
      | none => .startJob
    match progressStatus with
    | some st =>
      if st == "parsing" || st == "building_groups" then .alreadyParsing
      else afterProgress
    | none => afterProgress

/-- `i64::MAX`. -/
def i64Max : Int := 9223372036854775807

/-- A playlist row, as read by `get_metadata` (only the fields the claim
is about; `expires_at` is the value stored in the row). -/
structure PlaylistRowM where
  hash : String
  url : String
  stats : PlaylistStats
  created_at : Int
  expires_at_stored : Option Int
deriving DecidableEq, Repr

/-- The metadata surfaced by `DbCacheService::get_metadata`. -/
structure CacheMetadataM where
  hash : String
  url : String
  stats : PlaylistStats
  created_at : Int
  expires_at : Int
deriving DecidableEq, Repr

/-- `DbCacheService::get_metadata` (`db_cache.rs` lines 29-62): maps the
row when present; `expires_at` is set to `i64::MAX` ("Eternal TTL")
regardless of the row's stored value. -/
def get_metadata (row : Option PlaylistRowM) : Option CacheMetadataM :=
  row.map (fun p =>
    { hash := p.hash, url := p.url, stats := p.stats,
      created_at := p.created_at, expires_at := i64Max })

/-- The `valid` flag computed by `validate_cache`
(`routes/playlist.rs` lines 383-411): `!(expires_at <= now)` when metadata
exists, `false` otherwise (row absent or metadata fetch failed). -/
def validate_cache_valid (row : Option PlaylistRowM) (now : Int) : Bool :=
  match get_metadata row with
  | some metadata => !(metadata.expires_at ≤ now)
  | none => false

/-! # Theorems for the specification claims -/

/-! ## C1: scenario E1 (dedup) -/

/-- The literal E1 playlist body, line by line. -/
def E1lines : List String :=
  [ "#EXTM3U",
    "#EXTINF:-1 group-title=\"A\",X",
    "http://x/1",
    "#EXTINF:-1 group-title=\"A\",X",
    "http://x/1",
    "#EXTINF:-1 group-title=\"A\",Y",
    "http://x/2" ]

/-- C1: parsing the literal E1 playlist body succeeds with final stats
`total_items = 2, live_count = 0, movie_count = 0, series_count = 0,
unknown_count = 2, group_count = 1`, exactly one duplicate skipped, and the
second `http://x/1` record neither written nor counted (the writer receives
exactly the two distinct URLs, in order). -/
theorem C1_e1_dedup_stats :
    (parse_and_cache E1lines).map (fun r =>
      (r.stats, r.duplicates_skipped, r.items.map (fun i => i.url),
        r.groups.map (fun g => g.name))) =
    .ok ({ total_items := 2, live_count := 0, movie_count := 0,
           series_count := 0, unknown_count := 2, group_count := 1 },
         1, ["http://x/1", "http://x/2"], ["A"]) := by
  rfl

/-! ## C2: bulk-copy round trip -/

/-- `digitChar` never emits a tab or newline. -/
theorem digitChar_ne (n : Nat) : digitChar n ≠ '\t' ∧ digitChar n ≠ '\n' := by
  unfold digitChar
  have h : n % 10 < 10 := Nat.mod_lt _ (by norm_num)
  set k := n % 10 with hk
  interval_cases k <;> exact (by decide)

/-- `natToStrCore` only adds digit characters. -/
theorem natToStrCore_chars (f : Nat) :
    ∀ (n : Nat) (acc : List Char), (∀ c ∈ acc, c ≠ '\t' ∧ c ≠ '\n') →
    ∀ c ∈ natToStrCore f n acc, c ≠ '\t' ∧ c ≠ '\n' := by
  induction f with
  | zero => intro n acc hacc; exact hacc
  | succ f ih =>
    intro n acc hacc c hc
    simp only [natToStrCore] at hc
    split at hc
    · rcases List.mem_cons.mp hc with h | h
      · exact h ▸ digitChar_ne n
      · exact hacc c h
    · refine ih _ _ ?_ c hc
      intro c hc
      rcases List.mem_cons.mp hc with h | h
      · exact h ▸ digitChar_ne _
      · exact hacc c h

/-- `natToStr` never contains a tab or newline. -/
theorem natToStr_no_tab_nl (n : Nat) :
    ∀ c ∈ (natToStr n).data, c ≠ '\t' ∧ c ≠ '\n' :=
  natToStrCore_chars (n + 1) n [] (by intro c hc; cases hc)

/-- `intToStr` never contains a tab or newline. -/
theorem intToStr_no_tab_nl (i : Int) :
    ∀ c ∈ (intToStr i).data, c ≠ '\t' ∧ c ≠ '\n' := by
  intro c hc
  unfold intToStr at hc
  split at hc
  · rw [String.data_append] at hc
    rcases List.mem_append.mp hc with h | h
    · simp only [show ("-").data = ['-'] from rfl, List.mem_singleton] at h
      exact h ▸ (by decide)
    · exact natToStr_no_tab_nl _ c h
  · exact natToStr_no_tab_nl _ c hc

/-- `escapeCopy` never leaves a tab or newline in the field. -/
theorem escapeCopy_no_tab_nl (s : String) :
    ∀ c ∈ (escapeCopy s).data, c ≠ '\t' ∧ c ≠ '\n' := by
  intro c hc
  simp only [escapeCopy, List.mem_filterMap] at hc
  obtain ⟨a, _, ha⟩ := hc
  by_cases h1 : a = '\r'
  · rw [if_pos h1] at ha
    cases ha
  · rw [if_neg h1] at ha
    by_cases h2 : a = '\t' ∨ a = '\n'
    · rw [if_pos h2] at ha
      obtain rfl : (' ' : Char) = c := by injection ha
      decide
    · rw [if_neg h2] at ha
      obtain rfl : a = c := by injection ha
      push_neg at h2
      exact h2

/-- `optEsc` fields are tab/newline-free. -/
theorem optEsc_no_tab_nl (o : Option String) :
    ∀ c ∈ (optEsc o).data, c ≠ '\t' ∧ c ≠ '\n' := by
  cases o with
  | some s => exact escapeCopy_no_tab_nl s
  | none => intro c hc; fin_cases hc <;> exact (by decide)

/-- `optNum` fields are tab/newline-free. -/
theorem optNum_no_tab_nl (o : Option Int) :
    ∀ c ∈ (optNum o).data, c ≠ '\t' ∧ c ≠ '\n' := by
  cases o with
  | some n => exact intToStr_no_tab_nl n
  | none => intro c hc; fin_cases hc <;> exact (by decide)

/-- A tab-free piece is returned whole by `splitTabs`. -/
theorem splitTabs_no_tab (f : List Char) (h : '\t' ∉ f) : splitTabs f = [f] := by
  induction f with
  | nil => rfl
  | cons c cs ih =>
    simp only [splitTabs]
    rw [ih (fun hc => h (List.mem_cons_of_mem _ hc))]
    have hc : ¬(c = '\t') := fun hh => h (hh ▸ List.mem_cons_self _ _)
    simp [hc]

/-- `splitTabs` peels off a tab-free piece before a tab. -/
theorem splitTabs_append (f l : List Char) (h : '\t' ∉ f) :
    splitTabs (f ++ '\t' :: l) = f :: splitTabs l := by
  induction f with
  | nil => simp [splitTabs]
  | cons c cs ih =>
    have hcs : '\t' ∉ cs := fun hc => h (List.mem_cons_of_mem _ hc)
    have hc : ¬(c = '\t') := fun hh => h (hh ▸ List.mem_cons_self _ _)
    show splitTabs (c :: (cs ++ '\t' :: l)) = _
    rw [splitTabs, ih hcs]
    simp [hc]

/-- Rebuilding strings from their character lists is the identity. -/
theorem map_mk_data (fs : List String) :
    ((fs.map String.data).map (fun l => (⟨l⟩ : String))) = fs := by
  induction fs with
  | nil => rfl
  | cons f rest ih =>
    simp only [List.map_cons]
    rw [ih]

/-- Parsing inverts joining for non-empty, tab/newline-free field lists. -/
theorem parse_copy_tabJoin (fs : List String) (hne : fs ≠ [])
    (h : ∀ f ∈ fs, ∀ c ∈ f.data, c ≠ '\t' ∧ c ≠ '\n') :
    parse_copy_line (tabJoin fs ++ "\n") = fs := by
  have key : splitTabs (tabJoin fs).data = fs.map String.data := by
    induction fs with
    | nil => exact absurd rfl hne
    | cons f rest ih =>
      cases rest with
      | nil =>
        show splitTabs f.data = [f.data]
        exact splitTabs_no_tab f.data
          (fun hc => ((h f (List.mem_cons_self _ _)) '\t' hc).1 rfl)
      | cons g rest' =>
        show splitTabs (f ++ "\t" ++ tabJoin (g :: rest')).data = _
        rw [String.data_append, String.data_append]
        rw [show ("\t").data = ['\t'] from rfl]
        rw [List.append_assoc, List.singleton_append]
        rw [splitTabs_append _ _
          (fun hc => ((h f (List.mem_cons_self _ _)) '\t' hc).1 rfl)]
        rw [ih (by simp) (fun f hf => h f (List.mem_cons_of_mem _ hf))]
        rfl
  unfold parse_copy_line
  have hrev : (tabJoin fs ++ "\n").data.reverse = '\n' :: (tabJoin fs).data.reverse := by
    rw [String.data_append, show ("\n").data = ['\n'] from rfl]
    simp
  simp only [hrev, List.reverse_reverse, key]
  exact map_mk_data fs

/-- An item whose name carries a carriage return and whose URL exceeds the
2048-character column limit named by the claim. -/
def cexC2Item : NewItem :=
  { playlist_id := "p", item_hash := "h", name := "a\rb",
    url := ⟨List.replicate 2100 'x'⟩, logo := none, group_name := "g",
    media_kind := "unknown", parsed_title := none, parsed_year := none,
    parsed_quality := none, series_id := none, season_number := some 1,
    episode_number := none, sort_order := 0 }

/-- A concrete item exercising every kind of field for the round-trip
witness. -/
def wC2Item : NewItem :=
  { playlist_id := "11111111-2222-3333-4444-555555555555",
    item_hash := "deadbeef", name := "Name\twith\ttabs\nand\rCR",
    url := "http://example.com/stream.ts", logo := some "http://l/x.png",
    group_name := "Group  A", media_kind := "live",
    parsed_title := some "Name", parsed_year := some 1999,
    parsed_quality := none, series_id := none, season_number := none,
    episode_number := some 12, sort_order := 7 }

/-- All fields of a copy line are tab/newline-free (given that the two
UUID columns are). -/
theorem copyFields_no_tab_nl (uuid : String) (item : NewItem)
    (hu : ∀ c ∈ uuid.data, c ≠ '\t' ∧ c ≠ '\n')
    (hp : ∀ c ∈ item.playlist_id.data, c ≠ '\t' ∧ c ≠ '\n') :
    ∀ f ∈ copyFields uuid item, ∀ c ∈ f.data, c ≠ '\t' ∧ c ≠ '\n' := by
  intro f hf
  simp only [copyFields, List.mem_cons, List.not_mem_nil, or_false] at hf
  rcases hf with rfl | rfl | rfl | rfl | rfl | rfl | rfl | rfl | rfl | rfl | rfl | rfl | rfl | rfl | rfl
  · exact hu
  · exact hp
  · exact escapeCopy_no_tab_nl _
  · exact escapeCopy_no_tab_nl _
  · exact escapeCopy_no_tab_nl _
  · exact optEsc_no_tab_nl _
  · exact escapeCopy_no_tab_nl _
  · exact escapeCopy_no_tab_nl _
  · exact optEsc_no_tab_nl _
  · exact optNum_no_tab_nl _
  · exact optEsc_no_tab_nl _
  · exact optEsc_no_tab_nl _
  · exact optNum_no_tab_nl _
  · exact optNum_no_tab_nl _
  · exact intToStr_no_tab_nl _

/-- Parsing the formatted line yields the field list (helper shared by the
round-trip theorem and the counterexample). -/
theorem parse_format_copy (uuid : String) (item : NewItem)
    (hu : ∀ c ∈ uuid.data, c ≠ '\t' ∧ c ≠ '\n')
    (hp : ∀ c ∈ item.playlist_id.data, c ≠ '\t' ∧ c ≠ '\n') :
    parse_copy_line (format_copy_line uuid item) = copyFields uuid item := by
  unfold format_copy_line
  exact parse_copy_tabJoin _ (by simp [copyFields]) (copyFields_no_tab_nl uuid item hu hp)

/-- `escapeCopy` keeps a run of `'x'` characters unchanged. -/
theorem escapeCopy_replicate_x (n : Nat) :
    escapeCopy ⟨List.replicate n 'x'⟩ = ⟨List.replicate n 'x'⟩ := by
  unfold escapeCopy
  congr 1
  induction n with
  | zero => rfl
  | succ n ih =>
    simp only [List.replicate_succ, List.filterMap_cons]
    rw [if_neg (by decide), if_neg (by decide)]
    rw [show (List.filterMap _ (List.replicate n 'x')) = List.replicate n 'x' from ih]

/-- C2 counterexample: the claim predicts that a carriage return in a
field becomes a space and that the URL field is truncated to its
2048-character column limit; the code deletes the carriage return (name
`"a\rb"` parses back as `"ab"`, not `"a b"`) and performs no truncation
at all (a 2100-character URL survives whole). -/
theorem C2_counterexample :
    (parse_copy_line (format_copy_line "u" cexC2Item))[3]? = some "ab" ∧
    ("ab" : String) ≠ "a b" ∧
    (parse_copy_line (format_copy_line "u" cexC2Item))[4]? =
      some (⟨List.replicate 2100 'x'⟩ : String) ∧
    2048 < (⟨List.replicate 2100 'x'⟩ : String).data.length := by
  have hparse := parse_format_copy "u" cexC2Item (by decide) (by decide)
  refine ⟨?_, by decide, ?_, by norm_num [List.length_replicate]⟩
  · rw [hparse]
    rfl
  · rw [hparse]
    show some (escapeCopy (⟨List.replicate 2100 'x'⟩ : String)) = _
    rw [escapeCopy_replicate_x]

/-- C2 (amended): parsing the COPY line produced by `format_copy_line`
recovers every field exactly as escaped — tab and newline replaced by a
single space, carriage return removed — with no truncation; NULL fields
read back as the literal `\N` marker. -/
theorem C2_copy_roundtrip (uuid : String) (item : NewItem)
    (hu : ∀ c ∈ uuid.data, c ≠ '\t' ∧ c ≠ '\n')
    (hp : ∀ c ∈ item.playlist_id.data, c ≠ '\t' ∧ c ≠ '\n') :
    parse_copy_line (format_copy_line uuid item) = copyFields uuid item :=
  parse_format_copy uuid item hu hp

/-- C2 witness: the amended round trip applied to a concrete item. -/
theorem C2_copy_roundtrip_witness :
    parse_copy_line (format_copy_line "uuid-1" wC2Item) = copyFields "uuid-1" wC2Item :=
  C2_copy_roundtrip "uuid-1" wC2Item (by decide) (by decide)

/-! ## C3: the header requirement -/

/-- `Except.isOk` for parse results. -/
def exceptIsOk : Except String ParseResult → Bool
  | .ok _ => true
  | .error _ => false

/-- `flushRunState` does not touch `found_header`. -/
theorem flushRunState_found_header (st : LoopState) :
    (flushRunState st).found_header = st.found_header := by
  unfold flushRunState
  split <;> rfl

/-- `seriesTrack` does not touch `found_header`. -/
theorem seriesTrack_found_header (st : LoopState) (info : ExtractedSeriesInfo)
    (g : String) (lg : Option String) (i n u : String) :
    (seriesTrack st info g lg i n u).found_header = st.found_header := by
  simp only [seriesTrack]
  split <;> split <;> simp [flushRunState_found_header]

/-- `processItemCore` does not touch `found_header`. -/
theorem processItemCore_found_header (st : LoopState) (name g : String)
    (lg : Option String) (kind : MediaKind)
    (si : Option ExtractedSeriesInfo) (u : String) :
    (processItemCore st name g lg kind si u).found_header = st.found_header := by
  simp only [processItemCore]
  cases si with
  | none => simp [flushRunState_found_header]
  | some info => simp [seriesTrack_found_header]

/-- `processUrl` does not touch `found_header`. -/
theorem processUrl_found_header (st : LoopState) (e : ExtinfData) (u : String) :
    (processUrl st e u).found_header = st.found_header := by
  simp only [processUrl]
  split
  · rfl
  · exact processItemCore_found_header _ _ _ _ _ _ _

/-- One loop step succeeds on a short-enough line and records exactly
whether the line (trimmed) is the `#EXTM3U` header. -/
theorem parseStep_ok_found_header (st : LoopState) (line : String)
    (h : utf8Len line ≤ MAX_LINE_BYTES) :
    ∃ st', parseStep st line = .ok st' ∧
      st'.found_header = (st.found_header || (rustTrim line == "#EXTM3U")) := by
  simp only [parseStep]
  rw [if_neg (by omega)]
  split
  · next hemp =>
    refine ⟨st, rfl, ?_⟩
    have he : rustTrim line = "" := by simpa using hemp
    rw [he]
    simp
  · next hemp =>
    split
    · next hdr =>
      refine ⟨_, rfl, ?_⟩
      have : (rustTrim line == "#EXTM3U") = true := by simpa using hdr
      rw [this, Bool.or_true]
    · next hdr =>
      have hfalse : (rustTrim line == "#EXTM3U") = false := by
        cases hb : (rustTrim line == "#EXTM3U") with
        | false => rfl
        | true => exact absurd (by simpa using hb) hdr
      rw [hfalse, Bool.or_false]
      split
      · exact ⟨st, rfl, rfl⟩
      · split
        · exact ⟨_, rfl, rfl⟩
        · split
          · split
            · exact ⟨_, rfl, by rw [processUrl_found_header]⟩
            · exact ⟨_, rfl, rfl⟩
          · exact ⟨st, rfl, rfl⟩

/-- Over a stream of short-enough lines the loop succeeds and
`found_header` ends up true exactly when some line is the header. -/
theorem runLoop_found_header (lines : List String) :
    ∀ st : LoopState, (∀ l ∈ lines, utf8Len l ≤ MAX_LINE_BYTES) →
    ∃ st', runLoop st lines = .ok st' ∧
      st'.found_header =
        (st.found_header || lines.any (fun l => rustTrim l == "#EXTM3U")) := by
  induction lines with
  | nil =>
    intro st _
    exact ⟨st, rfl, by simp⟩
  | cons line rest ih =>
    intro st h
    obtain ⟨st1, hstep, hfh⟩ :=
      parseStep_ok_found_header st line (h line (List.mem_cons_self _ _))
    obtain ⟨st', hrun, hfh'⟩ := ih st1 (fun l hl => h l (List.mem_cons_of_mem _ hl))
    refine ⟨st', ?_, ?_⟩
    · unfold runLoop
      rw [hstep]
      exact hrun
    · rw [hfh', hfh, List.any_cons]
      simp [Bool.or_assoc, Bool.or_comm]

/-- C3 counterexample: the stream whose first line is the plain URL
`http://x/0` — a non-empty non-comment line different from `#EXTM3U` —
is accepted by the parser, because the header check only requires a
`#EXTM3U` line to appear somewhere before the end of the stream. -/
theorem C3_counterexample :
    (rustTrim "http://x/0" == "#EXTM3U") = false ∧
    startsWithS "http://x/0" "#" = false ∧
    (rustTrim "http://x/0" == "") = false ∧
    exceptIsOk (parse_and_cache ["http://x/0", "#EXTM3U"]) = true := by
  exact ⟨rfl, rfl, rfl, rfl⟩

/-- C3 (amended): for streams within the per-line byte bound, ingestion
fails (with the missing-header error, deleting the partial playlist) if
and only if no line of the stream equals `#EXTM3U` after trimming — the
header need not precede the records, and records before it are still
processed. -/
theorem C3_header_required (lines : List String)
    (h : ∀ l ∈ lines, utf8Len l ≤ MAX_LINE_BYTES) :
    exceptIsOk (parse_and_cache lines) = true ↔
      ∃ l ∈ lines, rustTrim l = "#EXTM3U" := by
  obtain ⟨st', hrun, hfh⟩ := runLoop_found_header lines {} h
  have hbase : (({} : LoopState).found_header) = false := rfl
  rw [hbase, Bool.false_or] at hfh
  unfold parse_and_cache
  rw [hrun]
  show exceptIsOk (if !(flushRunState st').found_header then _ else _) = true ↔ _
  rw [flushRunState_found_header st', hfh]
  cases hany : lines.any (fun l => rustTrim l == "#EXTM3U") with
  | false =>
    simp only [Bool.not_false, if_pos]
    constructor
    · intro hcontra
      cases hcontra
    · intro ⟨l, hl, hl2⟩
      have : lines.any (fun l => rustTrim l == "#EXTM3U") = true :=
        List.any_eq_true.mpr ⟨l, hl, by simp [hl2]⟩
      rw [hany] at this
      cases this
  | true =>
    simp only [Bool.not_true, Bool.false_eq_true, if_false]
    constructor
    · intro _
      obtain ⟨l, hl, hl2⟩ := List.any_eq_true.mp hany
      exact ⟨l, hl, by simpa using hl2⟩
    · intro _
      rfl

/-- C3 witness: the amended equivalence applied to the one-line header
stream. -/
theorem C3_header_required_witness :
    exceptIsOk (parse_and_cache ["#EXTM3U"]) = true :=
  (C3_header_required ["#EXTM3U"] (by decide)).mpr ⟨"#EXTM3U", by decide, rfl⟩

/-! ## C5: series-record invariants -/

/-- Total number of episodes held in a seasons map. -/
def sumSizes (m : List (Nat × List SeriesEpisode)) : Nat :=
  (m.map (fun p => p.2.length)).sum

/-- Inserting an episode grows the total by one. -/
theorem sumSizes_groupInsert (m : List (Nat × List SeriesEpisode))
    (ep : SeriesEpisode) : sumSizes (groupInsert m ep) = sumSizes m + 1 := by
  induction m with
  | nil => simp [groupInsert, sumSizes]
  | cons q rest ih =>
    obtain ⟨k, eps⟩ := q
    simp only [groupInsert]
    split
    · simp only [sumSizes, List.map_cons, List.sum_cons, List.length_append,
        List.length_cons, List.length_nil]
      omega
    · simp only [sumSizes, List.map_cons, List.sum_cons] at ih ⊢
      omega

/-- Folding episodes into a map adds exactly their count. -/
theorem sumSizes_foldl (l : List SeriesEpisode) :
    ∀ m, sumSizes (l.foldl groupInsert m) = sumSizes m + l.length := by
  induction l with
  | nil => intro m; simp
  | cons ep rest ih =>
    intro m
    simp only [List.foldl_cons, List.length_cons]
    rw [ih (groupInsert m ep), sumSizes_groupInsert]
    omega

/-- The season keys of a seasons map. -/
def keysOf (m : List (Nat × List SeriesEpisode)) : List Nat :=
  m.map (fun p => p.1)

/-- `groupInsert` adds the season key only when it is new. -/
theorem keysOf_groupInsert (m : List (Nat × List SeriesEpisode))
    (ep : SeriesEpisode) :
    keysOf (groupInsert m ep) =
      if ep.season ∈ keysOf m then keysOf m else keysOf m ++ [ep.season] := by
  induction m with
  | nil => simp [groupInsert, keysOf]
  | cons q rest ih =>
    obtain ⟨k, eps⟩ := q
    simp only [groupInsert]
    by_cases hk : k = ep.season
    · rw [if_pos hk]
      have : ep.season ∈ keysOf ((k, eps) :: rest) := by
        simp [keysOf, hk.symm]
      rw [if_pos this]
      rfl
    · rw [if_neg hk]
      have hmem : (ep.season ∈ keysOf ((k, eps) :: rest)) ↔ (ep.season ∈ keysOf rest) := by
        show (ep.season ∈ k :: keysOf rest) ↔ _
        rw [List.mem_cons]
        exact ⟨fun h => h.elim (fun h1 => absurd h1.symm hk) id, Or.inr⟩
      by_cases hm : ep.season ∈ keysOf rest
      · rw [if_pos (hmem.mpr hm)]
        show k :: keysOf (groupInsert rest ep) = _
        rw [ih, if_pos hm]
        rfl
      · rw [if_neg (fun h => hm (hmem.mp h))]
        show k :: keysOf (groupInsert rest ep) = _
        rw [ih, if_neg hm]
        rfl

/-- `groupInsert` preserves distinctness of the season keys. -/
theorem nodup_keys_groupInsert (m : List (Nat × List SeriesEpisode))
    (ep : SeriesEpisode) (h : (keysOf m).Nodup) :
    (keysOf (groupInsert m ep)).Nodup := by
  rw [keysOf_groupInsert]
  split
  · exact h
  · next hmem => simp [List.nodup_append, h, hmem]

/-- Folding a whole episode list keeps the keys distinct. -/
theorem nodup_keys_foldl (l : List SeriesEpisode) :
    ∀ m, (keysOf m).Nodup → (keysOf (l.foldl groupInsert m)).Nodup := by
  induction l with
  | nil => intro m h; exact h
  | cons ep rest ih =>
    intro m h
    exact ih (groupInsert m ep) (nodup_keys_groupInsert m ep h)

/-- Sorted (by `≤`) plus distinct keys gives strict sortedness. -/
theorem pairwise_lt_of_sorted_nodup :
    ∀ l : List SeasonData, l.Pairwise sdLe →
      (l.map (fun s => s.season_number)).Nodup →
      l.Pairwise (fun a b => a.season_number < b.season_number) := by
  intro l
  induction l with
  | nil => intro _ _; exact List.Pairwise.nil
  | cons a t ih =>
    intro hp hn
    rw [List.pairwise_cons] at hp ⊢
    rw [List.map_cons, List.nodup_cons] at hn
    refine ⟨?_, ih hp.2 hn.2⟩
    intro b hb
    have hle : a.season_number ≤ b.season_number := hp.1 b hb
    have hne : a.season_number ≠ b.season_number := by
      intro hEq
      exact hn.1 (hEq ▸ List.mem_map_of_mem (fun s => s.season_number) hb)
    omega

/-- Sorting the season list does not change the total episode count:
the sum of the per-season lengths equals the episode count of the map. -/
theorem sum_sizes_seasons (sm : List (Nat × List SeriesEpisode)) :
    ((List.insertionSort sdLe (sm.map mkSeasonData)).map
      (fun s => s.episodes.length)).sum = sumSizes sm := by
  rw [((List.perm_insertionSort sdLe (sm.map mkSeasonData)).map
    (fun s => s.episodes.length)).sum_eq]
  rw [List.map_map]
  have hcomp : ((fun s : SeasonData => s.episodes.length) ∘ mkSeasonData) =
      (fun p : Nat × List SeriesEpisode => p.2.length) := by
    funext p
    simp [mkSeasonData, Function.comp, List.length_insertionSort]
  rw [hcomp]
  rfl

/-- Every entry of the sorted season list has its episodes sorted by
episode number. -/
theorem seasons_each_sorted (sm : List (Nat × List SeriesEpisode)) :
    ∀ s ∈ List.insertionSort sdLe (sm.map mkSeasonData),
      s.episodes.Pairwise (fun a b => a.episode ≤ b.episode) := by
  intro s hs
  rw [List.mem_insertionSort] at hs
  obtain ⟨p, _, rfl⟩ := List.mem_map.mp hs
  exact List.sorted_insertionSort epNumLe p.2

/-- If the map's keys are distinct, the sorted season list is strictly
increasing by season number. -/
theorem seasons_strict_sorted (sm : List (Nat × List SeriesEpisode))
    (h : (keysOf sm).Nodup) :
    (List.insertionSort sdLe (sm.map mkSeasonData)).Pairwise
      (fun a b => a.season_number < b.season_number) := by
  apply pairwise_lt_of_sorted_nodup
  · exact List.sorted_insertionSort sdLe _
  · rw [((List.perm_insertionSort sdLe (sm.map mkSeasonData)).map
      (fun s => s.season_number)).nodup_iff]
    rw [List.map_map]
    have hcomp : ((fun s : SeasonData => s.season_number) ∘ mkSeasonData) =
        (fun p : Nat × List SeriesEpisode => p.1) := rfl
    rw [hcomp]
    exact h

/-- C5: for `build_series_info` of any accumulator, `total_seasons` is the
number of seasons, `total_episodes` is the sum of the season episode
counts, episodes within a season are non-decreasing by episode number,
the seasons are strictly increasing by season number, and
`first_season`/`last_season` are the season numbers of the first and last
entries of the sorted season list (0 when there are none). -/
theorem C5_build_series_info_invariants (accum : SeriesAccumulator) :
    ∃ sd, (build_series_info accum).seasons_data = some sd ∧
      (build_series_info accum).total_seasons = sd.length ∧
      (build_series_info accum).total_episodes =
        (sd.map (fun s => s.episodes.length)).sum ∧
      (∀ s ∈ sd, s.episodes.Pairwise (fun a b => a.episode ≤ b.episode)) ∧
      sd.Pairwise (fun a b => a.season_number < b.season_number) ∧
      (build_series_info accum).first_season =
        ((sd.head?.map (fun s => s.season_number)).getD 0) ∧
      (build_series_info accum).last_season =
        ((sd.getLast?.map (fun s => s.season_number)).getD 0) := by
  refine ⟨_, rfl, rfl, ?_, seasons_each_sorted _,
    seasons_strict_sorted _ (nodup_keys_foldl _ [] (by simp [keysOf])),
    rfl, rfl⟩
  show (List.insertionSort epLex accum.episodes).length = _
  rw [sum_sizes_seasons]
  show _ = sumSizes (groupBySeason
    ((List.insertionSort epLex accum.episodes).map toSeriesEpisode))
  unfold groupBySeason
  rw [sumSizes_foldl]
  simp [sumSizes]

/-! ## C6: scenario E4 (proxy rewrite) -/

/-- The literal E4 manifest fetched from `http://o/a/b.m3u8`. -/
def E4manifest : String :=
  "#EXTM3U\n#EXT-X-KEY:METHOD=AES-128,URI=\"key.bin\"\nseg1.ts\nhttp://cdn/seg2.ts\n"

/-- C6: rewriting the E4 manifest keeps `#EXTM3U` and rewrites the two data
lines exactly as claimed, but the `#EXT-X-KEY` line comes out as
`URI="URI="…""` — the `URI="` marker duplicated and the closing quote
doubled — instead of the claimed `URI="…"`: the slice arithmetic of
`rewrite_uri_attribute` re-emits the `URI="` prefix that is already part of
`line[..uri_start]` and starts the tail slice at the closing quote. -/
theorem C6_e4_rewrite_eval :
    rewrite_manifest_urls E4manifest "http://o/a/b.m3u8" "http://p" none =
      "#EXTM3U\n" ++
      "#EXT-X-KEY:METHOD=AES-128,URI=\"URI=\"http://p/api/proxy/hls?url=http%3A%2F%2Fo%2Fa%2Fkey.bin\"\"\n" ++
      "http://p/api/proxy/hls?url=http%3A%2F%2Fo%2Fa%2Fseg1.ts\n" ++
      "http://p/api/proxy/hls?url=http%3A%2F%2Fcdn%2Fseg2.ts\n" ∧
    ("#EXT-X-KEY:METHOD=AES-128,URI=\"URI=\"http://p/api/proxy/hls?url=http%3A%2F%2Fo%2Fa%2Fkey.bin\"\"" : String) ≠
      "#EXT-X-KEY:METHOD=AES-128,URI=\"http://p/api/proxy/hls?url=http%3A%2F%2Fo%2Fa%2Fkey.bin\"" := by
  exact ⟨rfl, by decide⟩

/-! ## C7: admission dedup by progress status -/

/-- C7 counterexample: a progress record whose status is `building_series`
— listed by the claim among the non-terminal statuses — does not
short-circuit the handler: with no playlist row for the hash the admission
starts a new job (re-initializing the progress record) instead of
returning `status: parsing`. -/
theorem C7_counterexample :
    parse_playlist_admission "http://u" (some "building_series") none =
      .startJob ∧
    AdmitOutcome.startJob ≠ AdmitOutcome.alreadyParsing := by
  exact ⟨rfl, by decide⟩

/-- C7 (amended): the handler returns `{status: parsing, hash}` immediately
— leaving the playlist, the progress record and the job table untouched —
exactly when the active progress record's status is `parsing` or
`building_groups` (the only non-terminal statuses the code ever stores;
`building_series` is used only as a phase label). -/
theorem C7_active_progress_short_circuit (url st : String)
    (existing : Option Int) (hurl : startsWithS url "http" = true)
    (hst : st = "parsing" ∨ st = "building_groups") :
    parse_playlist_admission url (some st) existing = .alreadyParsing := by
  have hne : (url == "") = false := by
    cases h : url == "" with
    | false => rfl
    | true =>
      have hu : url = "" := by simpa using h
      rw [hu] at hurl
      exact absurd hurl (by decide)
  unfold parse_playlist_admission
  rcases hst with h | h <;> subst h <;> simp [hne, hurl]

/-- C7 witness: the amended theorem applied at a concrete active-progress
state. -/
theorem C7_active_progress_short_circuit_witness :
    parse_playlist_admission "http://example.com/a.m3u" (some "parsing")
      (some 0) = .alreadyParsing :=
  C7_active_progress_short_circuit "http://example.com/a.m3u" "parsing"
    (some 0) (by decide) (Or.inl rfl)

/-! ## C4: the 24h classifier override -/

/-- C4 counterexample: `A24house` contains the substring `24h`
(case-insensitively), yet the classifier returns `Movie` for it in group
`Filmes` — the override regex `\b24h(rs)?\b` requires word boundaries, so
a bare substring occurrence does not force `Live`. -/
theorem C4_counterexample :
    containsSub (lowerStr "A24house") "24h" = true ∧
    classify "A24house" "Filmes" = .movie ∧
    MediaKind.movie ≠ MediaKind.live := by
  exact ⟨rfl, rfl, by decide⟩

/-- C4 (amended): whenever the combined, lowercased `name ++ " " ++ group`
text matches `\b24h(rs)?\b` (the word-bounded 24h marker) or contains
`24/7`, `classify` returns `Live` — this override fires before every other
non-Live-returning rule, so in particular it beats the series terms in the
group (scenario E3). -/
theorem C4_24h_override (name group : String)
    (h : rxMatch pattern24hPat (lowerStr (name ++ " " ++ group)) = true ∨
         rxMatch pattern247Pat (lowerStr (name ++ " " ++ group)) = true) :
    classify name group = .live := by
  simp only [classify]
  split
  · rfl
  · split
    · rfl
    · have hb : (rxMatch pattern24hPat (lowerStr (name ++ " " ++ group)) ||
          rxMatch pattern247Pat (lowerStr (name ++ " " ++ group))) = true := by
        rcases h with h | h <;> simp [h]
      rw [hb]
      simp

/-- C4 witness: scenario E3 — `name = "24H • Harry Potter"`,
`group = "Séries 24h"` classifies as `Live`. -/
theorem C4_24h_override_witness :
    classify "24H • Harry Potter" "Séries 24h" = .live :=
  C4_24h_override "24H • Harry Potter" "Séries 24h" (Or.inl (by rfl))

/-! ## C8: the series hash -/

/-- Every accumulator entry keyed `k` carries the id `series_<SHA1(k)>`
and `k` is the `group ++ "_" ++ name` of the entry. -/
def AccumInv (m : List (String × SeriesAccumulator)) : Prop :=
  ∀ p ∈ m, p.2.id = "series_" ++ hash_url p.1 ∧ p.1 = p.2.group ++ "_" ++ p.2.name

/-- The current run's key is its `group ++ "_" ++ series_name`. -/
def RunInv : Option SeriesRun → Prop
  | none => True
  | some run => run.series_key = run.group ++ "_" ++ run.series_name

/-- The loop-state invariant for the series-hash claim. -/
def StInv (st : LoopState) : Prop :=
  AccumInv st.series_accum ∧ RunInv st.current_run

/-- `flushGo` with the id `series_<SHA1(key)>` preserves the accumulator
invariant. -/
theorem flushGo_inv (run : SeriesRun)
    (hr : run.series_key = run.group ++ "_" ++ run.series_name) :
    ∀ m, AccumInv m →
      AccumInv (flushGo run ("series_" ++ hash_url run.series_key) m) := by
  intro m
  induction m with
  | nil =>
    intro _ p hp
    simp only [flushGo, List.mem_singleton] at hp
    subst hp
    exact ⟨rfl, hr⟩
  | cons q rest ih =>
    intro hm p hp
    obtain ⟨k, acc⟩ := q
    simp only [flushGo] at hp
    split at hp
    · rcases List.mem_cons.mp hp with rfl | hmem
      · exact ⟨(hm (k, acc) (List.mem_cons_self _ _)).1,
          (hm (k, acc) (List.mem_cons_self _ _)).2⟩
      · exact hm _ (List.mem_cons_of_mem _ hmem)
    · rcases List.mem_cons.mp hp with rfl | hmem
      · exact hm _ (List.mem_cons_self _ _)
      · exact ih (fun p hp => hm p (List.mem_cons_of_mem _ hp)) p hmem

/-- `flush_run_to_accumulator` preserves the accumulator invariant. -/
theorem flush_accum_inv (m : List (String × SeriesAccumulator))
    (run : SeriesRun) (hm : AccumInv m)
    (hr : run.series_key = run.group ++ "_" ++ run.series_name) :
    AccumInv (flush_run_to_accumulator m run) := by
  unfold flush_run_to_accumulator
  split
  · exact hm
  · exact flushGo_inv run hr m hm

/-- `flushRunState` preserves the invariant (and clears the run). -/
theorem flushRunState_inv (st : LoopState) (h : StInv st) :
    StInv (flushRunState st) := by
  unfold flushRunState
  cases hcr : st.current_run with
  | none => exact h
  | some run =>
    refine ⟨?_, trivial⟩
    have hr : run.series_key = run.group ++ "_" ++ run.series_name := by
      have h2 := h.2
      rw [hcr] at h2
      exact h2
    exact flush_accum_inv _ run h.1 hr

/-- `seriesTrack` preserves the invariant. -/
theorem seriesTrack_inv (st : LoopState) (info : ExtractedSeriesInfo)
    (g : String) (lg : Option String) (i n u : String) (h : StInv st) :
    StInv (seriesTrack st info g lg i n u) := by
  cases hcr : st.current_run with
  | none =>
    simp only [seriesTrack, hcr]
    norm_num
    refine ⟨(flushRunState_inv st h).1, ?_⟩
    show (g ++ "_" ++ info.series_name) = g ++ "_" ++ info.series_name
    rfl
  | some run =>
    by_cases hsame : (run.series_key == g ++ "_" ++ info.series_name) = true
    · simp only [seriesTrack, hcr, hsame]
      norm_num [hcr]
      refine ⟨h.1, ?_⟩
      have h2 := h.2
      rw [hcr] at h2
      show run.series_key = run.group ++ "_" ++ run.series_name
      exact h2
    · rw [Bool.not_eq_true] at hsame
      simp only [seriesTrack, hcr, hsame]
      norm_num
      refine ⟨(flushRunState_inv st h).1, ?_⟩
      show (g ++ "_" ++ info.series_name) = g ++ "_" ++ info.series_name
      rfl

/-- `processItemCore` preserves the invariant. -/
theorem processItemCore_inv (st : LoopState) (name g : String)
    (lg : Option String) (kind : MediaKind)
    (si : Option ExtractedSeriesInfo) (u : String) (h : StInv st) :
    StInv (processItemCore st name g lg kind si u) := by
  simp only [processItemCore]
  cases si with
  | none =>
    have hfl := flushRunState_inv st h
    exact ⟨hfl.1, hfl.2⟩
  | some info =>
    have hst := seriesTrack_inv st info g lg
      (generate_item_id u st.item_index) name u h
    exact ⟨hst.1, hst.2⟩

/-- `processUrl` preserves the invariant. -/
theorem processUrl_inv (st : LoopState) (e : ExtinfData) (u : String)
    (h : StInv st) : StInv (processUrl st e u) := by
  simp only [processUrl]
  split
  · exact h
  · exact processItemCore_inv _ _ _ _ _ _ _ ⟨h.1, h.2⟩

/-- `parseStep` preserves the invariant on success. -/
theorem parseStep_inv (st : LoopState) (line : String) (st' : LoopState)
    (h : parseStep st line = .ok st') (hinv : StInv st) : StInv st' := by
  simp only [parseStep] at h
  split at h
  · cases h
  · split at h
    · obtain rfl := Except.ok.inj h
      exact hinv
    · split at h
      · obtain rfl := Except.ok.inj h
        exact ⟨hinv.1, hinv.2⟩
      · split at h
        · obtain rfl := Except.ok.inj h
          exact hinv
        · split at h
          · obtain rfl := Except.ok.inj h
            exact ⟨hinv.1, hinv.2⟩
          · split at h
            · split at h
              · obtain rfl := Except.ok.inj h
                exact processUrl_inv _ _ _ ⟨hinv.1, hinv.2⟩
              · obtain rfl := Except.ok.inj h
                exact ⟨hinv.1, hinv.2⟩
            · obtain rfl := Except.ok.inj h
              exact hinv

/-- `runLoop` preserves the invariant on success. -/
theorem runLoop_inv (lines : List String) :
    ∀ st st', runLoop st lines = .ok st' → StInv st → StInv st' := by
  induction lines with
  | nil =>
    intro st st' h hinv
    obtain rfl := Except.ok.inj h
    exact hinv
  | cons line rest ih =>
    intro st st' h hinv
    unfold runLoop at h
    cases hstep : parseStep st line with
    | error e => rw [hstep] at h; cases h
    | ok st1 =>
      rw [hstep] at h
      exact ih st1 st' h (parseStep_inv st line st1 hstep hinv)

/-- `build_series_info` copies id, name and group unchanged. -/
theorem build_series_info_id (a : SeriesAccumulator) :
    (build_series_info a).id = a.id ∧ (build_series_info a).name = a.name ∧
    (build_series_info a).group = a.group :=
  ⟨rfl, rfl, rfl⟩

/-- The minimal playlist whose one item is a series episode. -/
def C8lines : List String :=
  [ "#EXTM3U",
    "#EXTINF:-1 group-title=\"Series\",Breaking Bad S01E01",
    "http://s/1" ]

/-- C8 counterexample: the persisted series identifier of the parsed
series is `series_<SHA1("Series_Breaking Bad")>`, which is not the bare
SHA-1 lowercase-hex digest the claim names (the code prefixes the digest
with `series_`). -/
theorem C8_counterexample :
    (parse_and_cache C8lines).map (fun r => r.series.map (fun s => s.id)) =
      .ok ["series_" ++ hash_url "Series_Breaking Bad"] ∧
    "series_" ++ hash_url "Series_Breaking Bad" ≠ hash_url "Series_Breaking Bad" := by
  refine ⟨rfl, ?_⟩
  intro hcontra
  have hlen := congrArg (fun s => s.data.length) hcontra
  simp only [String.data_append] at hlen
  simp at hlen
  omega

/-- C8 (amended): every series record produced by a successful parse has
`series_hash = "series_" ++ SHA1hex(group_normalized ++ "_" ++ series_name)`
— the SHA-1 digest of the accumulated group and series name joined by an
underscore, prefixed with `series_` (deterministic, so two items with the
same normalized group and extracted series name always map to the same
series hash). -/
theorem C8_series_hash (lines : List String) (r : ParseResult)
    (h : parse_and_cache lines = .ok r) :
    ∀ s ∈ r.series, s.id = "series_" ++ hash_url (s.group ++ "_" ++ s.name) := by
  unfold parse_and_cache at h
  cases hrun : runLoop {} lines with
  | error e =>
    rw [hrun] at h
    cases h
  | ok st =>
    rw [hrun] at h
    have hbase : StInv {} :=
      ⟨fun p hp => absurd hp (List.not_mem_nil p), trivial⟩
    have hinv : StInv st := runLoop_inv lines {} st hrun hbase
    have hacc : AccumInv (flushRunState st).series_accum :=
      (flushRunState_inv st hinv).1
    have h2 : (if !(flushRunState st).found_header then
        (Except.error "Invalid playlist format (missing #EXTM3U header)" :
          Except String ParseResult)
      else _) = .ok r := h
    clear h
    split at h2
    · cases h2
    · obtain rfl := Except.ok.inj h2
      intro s hs
      simp only [List.mem_map] at hs
      obtain ⟨p, hp, rfl⟩ := hs
      obtain ⟨hid, hkey⟩ := hacc p hp
      rw [(build_series_info_id p.2).1, (build_series_info_id p.2).2.1,
        (build_series_info_id p.2).2.2, hid, hkey]

/-- C8 witness: the amended formula instantiated on the minimal series
playlist. -/
theorem C8_series_hash_witness :
    ∃ r, parse_and_cache C8lines = .ok r ∧
      ∀ s ∈ r.series, s.id = "series_" ++ hash_url (s.group ++ "_" ++ s.name) :=
  ⟨_, rfl, C8_series_hash C8lines _ rfl⟩

/-! ## C9: scenario E6 (Xtream normalization) -/

/-- C9: `split_csv` trims and drops empties, `parse_rating` divides values
above 10 by 10, and `parse_duration_to_secs` converts `HH:MM:SS` — on the
literal E6 inputs. -/
theorem C9_e6_xtream_normalization :
    split_csv (some "Alice, Bob ,  Carol ") = ["Alice", "Bob", "Carol"] ∧
    parse_rating (some "85") = some ((17 : ℚ) / 2) ∧
    parse_duration_to_secs (some "01:30:00") = some 5400 := by
  refine ⟨rfl, ?_, rfl⟩
  have h : parse_rating (some "85") =
      some (if (10 : ℚ) < 1 * ((85 : Nat) : ℚ) then 1 * ((85 : Nat) : ℚ) / 10
            else 1 * ((85 : Nat) : ℚ)) := rfl
  rw [h]
  norm_num

/-! ## C10: validate endpoint -/

/-- C10: for every playlist row in the store — whatever its stored
`expires_at` — the validate endpoint reports `valid = true` for any
realizable clock value (the metadata layer pins `expires_at` to
`i64::MAX`, so the expiry comparison never triggers); `valid = false`
arises only when no row exists. -/
theorem C10_validate_always_true (row : PlaylistRowM) (now : Int)
    (h : now < i64Max) :
    validate_cache_valid (some row) now = true ∧
    validate_cache_valid none now = false := by
  constructor
  · have hn : ¬ (i64Max ≤ now) := not_le_of_lt h
    simp [validate_cache_valid, get_metadata, hn]
  · rfl

/-- C10 witness: a concrete row whose stored `expires_at` lies far in the
past is still reported valid at a present-day clock. -/
theorem C10_validate_always_true_witness :
    validate_cache_valid
      (some { hash := "h", url := "http://u", stats := {},
              created_at := 0, expires_at_stored := some 0 })
      1700000000000 = true ∧
    validate_cache_valid none 1700000000000 = false :=
  C10_validate_always_true _ 1700000000000 (by decide)

end AtivePlay
